import Mathlib

/-!
Shallow embedding of the vibe-check-movies server (server/index.js) and
verification of its specification claims.

Modelling conventions:
* JavaScript values that can reach `sanitize` are modelled by `JSValue`.
* JSON documents are modelled by the `Json` inductive.
* `JSON.parse` and `JSON.stringify` are runtime facilities external to the
  repository; they are passed in as explicit function parameters
  (`parse : String → Option Json`, parse failure = thrown `SyntaxError`;
  `stringify : Json → String`).  Theorems that depend on actual JSON
  round-tripping take the corresponding behaviour as hypotheses.
* The SQLite store is modelled by `DB`: two lists of rows.  Primary-key
  violations (which make `better-sqlite3`/`.run` throw) are modelled as
  server errors that leave the failing INSERT unexecuted.
* The external completion service (`callAI`) is modelled by its returned
  value `ai : Option String` (`none` = missing key / network failure).
* `fetch`-based movie lookup, CORS, rate limiting and socket wiring are
  outside the claims and not modelled.
-/

/-- A JSON document, the shape of `answers`, `results` and model output. -/
inductive Json where
  | null
  | bool (b : Bool)
  | num (n : Int)
  | str (s : String)
  | arr (elems : List Json)
  | obj (fields : List (String × Json))

/-- Field lookup on a JSON object (`undefined` otherwise), i.e. `j[key]`. -/
def Json.lookup (j : Json) (key : String) : Option Json :=
  match j with
  | .obj fields => (fields.find? (fun kv => kv.1 == key)).map (fun kv => kv.2)
  | _ => none

/-- A JavaScript value as it can appear in a request body field. -/
inductive JSValue where
  | str (s : String)
  | num (n : Int)
  | boolean (b : Bool)
  | null
  | undef
  | object
  | array

/-- Whether `typeof v === "string"`. -/
def JSValue.isStr : JSValue → Bool
  | .str _ => true
  | _ => false

/-- The character `&`. -/
def ampChar : Char := Char.ofNat 38

/-- The character `'` (apostrophe). -/
def aposChar : Char := Char.ofNat 39

/-- The character `"` (double quote). -/
def quotChar : Char := Char.ofNat 34

/-- The character `\x7b` (opening curly brace). -/
def openBrace : Char := Char.ofNat 123

/-- The character `\x7d` (closing curly brace). -/
def closeBrace : Char := Char.ofNat 125

/-- The whitespace set trimmed by JavaScript `String.prototype.trim`. -/
def jsWhitespaceChars : List Char :=
  ['\t', '\n', '\x0b', '\x0c', '\r', ' ',
   Char.ofNat 0x00a0, Char.ofNat 0x1680,
   Char.ofNat 0x2000, Char.ofNat 0x2001, Char.ofNat 0x2002, Char.ofNat 0x2003,
   Char.ofNat 0x2004, Char.ofNat 0x2005, Char.ofNat 0x2006, Char.ofNat 0x2007,
   Char.ofNat 0x2008, Char.ofNat 0x2009, Char.ofNat 0x200a,
   Char.ofNat 0x2028, Char.ofNat 0x2029, Char.ofNat 0x202f,
   Char.ofNat 0x205f, Char.ofNat 0x3000, Char.ofNat 0xfeff]

/-- Membership in the JavaScript trim whitespace set. -/
def isJsWhitespace (c : Char) : Bool := jsWhitespaceChars.contains c

/-- `s.replace(/c/g, r)`: global single-character replacement. -/
def replaceAllChar (c : Char) (r : String) (s : String) : String :=
  ⟨(s.data.map (fun x => if x = c then r.data else [x])).flatten⟩

/-- `s.trim()` with the JavaScript whitespace set. -/
def jsTrim (s : String) : String :=
  ⟨((s.data.dropWhile isJsWhitespace).reverse.dropWhile isJsWhitespace).reverse⟩

/-- `s.slice(0, n)` (entity replacement keeps every character in the BMP,
so code-unit and character counting agree on sanitized strings). -/
def jsSlice (n : Nat) (s : String) : String := ⟨s.data.take n⟩

/-- The entity-escaping pass of `sanitize`: the five chained global
replaces, ampersand first. -/
def escapeHtml (s : String) : String :=
  replaceAllChar aposChar "&#x27;"
    (replaceAllChar quotChar "&quot;"
      (replaceAllChar '>' "&gt;"
        (replaceAllChar '<' "&lt;"
          (replaceAllChar ampChar "&amp;" s))))

/-- `sanitize` from server/index.js: entity-escape the five XSS-relevant
characters, then trim, then cut to 50 characters; non-strings map to `""`. -/
def sanitize (v : JSValue) : String :=
  match v with
  | .str s => jsSlice 50 (jsTrim (escapeHtml s))
  | _ => ""

/-- A row of the `sessions` table. -/
structure SessionRow where
  id : String
  status : String
  host_name : String
  results : Option String
  created_at : Nat
deriving DecidableEq, Repr

/-- A row of the `participants` table. -/
structure ParticipantRow where
  id : String
  session_id : String
  name : String
  answers : Option String
  completed : Bool
  created_at : Nat
deriving DecidableEq, Repr

/-- The SQLite database: both tables. -/
structure DB where
  sessions : List SessionRow
  participants : List ParticipantRow
deriving DecidableEq, Repr

/-- The empty database (fresh movies.db). -/
def emptyDB : DB := ⟨[], []⟩

/-- The socket.io events emitted to a session channel. -/
inductive Event where
  | participant_joined (name : String)
  | questions_ready
  | answer_submitted (participantName : String)
  | results_ready
deriving DecidableEq, Repr

/-- An HTTP error outcome of a handler. -/
inductive HttpError where
  | notFound (msg : String)
  | badRequest (msg : String)
  | serverError (msg : String)
deriving DecidableEq, Repr

/-- Outcome of one handler invocation: response, post-state, emitted events,
and the number of times `generateResults` was invoked during the call. -/
structure OpOut (α : Type) where
  resp : Except HttpError α
  db : DB
  events : List Event
  synths : Nat

/-- `SELECT * FROM sessions WHERE id = ?`. -/
def findSession (db : DB) (sid : String) : Option SessionRow :=
  db.sessions.find? (fun s => s.id == sid)

/-- The status column of session `sid`, when it exists. -/
def sessionStatus (db : DB) (sid : String) : Option String :=
  (findSession db sid).map (fun s => s.status)

/-- The results column of session `sid`, when it exists. -/
def sessionResults (db : DB) (sid : String) : Option (Option String) :=
  (findSession db sid).map (fun s => s.results)

/-- `SELECT * FROM participants WHERE session_id = ?`. -/
def sessionParticipants (db : DB) (sid : String) : List ParticipantRow :=
  db.participants.filter (fun p => p.session_id == sid)

/-- `SELECT * FROM participants WHERE id = ?` (first match). -/
def participantById (db : DB) (pid : String) : Option ParticipantRow :=
  db.participants.find? (fun p => p.id == pid)

/-- `UPDATE sessions SET status = ? WHERE id = ?`. -/
def setSessionStatus (db : DB) (sid : String) (st : String) : DB :=
  { db with sessions :=
      db.sessions.map (fun s => if s.id == sid then { s with status := st } else s) }

/-- `UPDATE sessions SET results = ?, status = ? WHERE id = ?`. -/
def setSessionResults (db : DB) (sid : String) (res : String) (st : String) : DB :=
  { db with sessions :=
      db.sessions.map (fun s =>
        if s.id == sid then { s with results := some res, status := st } else s) }

/-- `UPDATE participants SET answers = ?, completed = 1 WHERE id = ?`. -/
def markParticipant (db : DB) (pid : String) (ansStr : String) : DB :=
  { db with participants :=
      db.participants.map (fun p =>
        if p.id == pid then { p with answers := some ansStr, completed := true } else p) }

/-- The string `"\x7b\x7d"`, the `JSON.parse` argument default in
`JSON.parse(p.answers || ...)`. -/
def emptyObjStr : String := ⟨[openBrace, closeBrace]⟩

/-- One element of `participantData`: parse the stored answers blob
(`JSON.parse` throwing is an error that escapes `generateResults`). -/
def participantDatum (parse : String → Option Json) (p : ParticipantRow) :
    Except String (String × Json) :=
  match parse (p.answers.getD emptyObjStr) with
  | some v => .ok (p.name, v)
  | none => .error "SyntaxError: JSON.parse on stored answers"

/-- `participants.map(p => (name, JSON.parse(p.answers || ...)))`: the first
throwing element aborts the whole construction. -/
def participantData (parse : String → Option Json) :
    List ParticipantRow → Except String (List (String × Json))
  | [] => .ok []
  | p :: rest => do
    let d ← participantDatum parse p
    let ds ← participantData parse rest
    return d :: ds

/-- One `individual_writeups` entry of the degraded-service fallback. -/
def fallbackWriteup (nm : String) : Json :=
  .obj [("name", .str nm),
        ("taste_summary", .str "Analysis unavailable"),
        ("personal_recs", .arr [])]

/-- The fallback object returned when `callAI` yields `null`. -/
def unavailableFallback (pdata : List (String × Json)) : Json :=
  .obj [("group_summary",
          .str "Could not generate recommendations. Check server configuration."),
        ("recommendations", .arr []),
        ("individual_writeups", .arr (pdata.map (fun d => fallbackWriteup d.1)))]

/-- The fallback object returned when the response holds no brace span. -/
def pendingFallback : Json :=
  .obj [("group_summary", .str "Analysis pending"),
        ("recommendations", .arr []),
        ("individual_writeups", .arr [])]

/-- The fallback object returned when the extracted span fails to parse. -/
def generatedFallback : Json :=
  .obj [("group_summary", .str "Analysis generated"),
        ("recommendations", .arr []),
        ("individual_writeups", .arr [])]

/-- `result.match(/\x7b[\s\S]*\x7d/)`: the span from the first opening brace
to the last closing brace after it, when both exist. -/
def jsonSpan (s : String) : Option String :=
  let cs := s.data
  match cs.findIdx? (fun c => c == openBrace),
        cs.reverse.findIdx? (fun c => c == closeBrace) with
  | some i, some k =>
      let j := cs.length - 1 - k
      if i < j then some ⟨(cs.drop i).take (j - i + 1)⟩ else none
  | _, _ => none

/-- `generateResults` from server/index.js: build `participantData`
(re-parsing each stored answers blob), consult the completion service
(`ai` is what `callAI` returned), and extract/parse the first JSON span of
the response, falling back to fixed degraded objects. -/
def generateResults (parse : String → Option Json) (ps : List ParticipantRow)
    (ai : Option String) : Except String Json := do
  let pdata ← participantData parse ps
  match ai with
  | none => return unavailableFallback pdata
  | some result =>
    match jsonSpan result with
    | some span =>
      match parse span with
      | some j => return j
      | none => return generatedFallback
    | none => return pendingFallback

/-- `POST /api/session` (`CreateSession`): sanitize and validate the host
name, insert the session (status defaults to lobby) and then the host as
first participant.  A duplicate generated id makes the corresponding INSERT
throw; statements already executed stay executed. -/
def createSession (db : DB) (sid pid : String) (now : Nat) (hostNameRaw : JSValue) :
    OpOut (String × String) :=
  let hostName := sanitize hostNameRaw
  if hostName = "" then
    ⟨.error (.badRequest "Name is required"), db, [], 0⟩
  else if db.sessions.any (fun s => s.id == sid) then
    ⟨.error (.serverError "UNIQUE constraint failed: sessions.id"), db, [], 0⟩
  else
    let db1 : DB := { db with sessions := db.sessions ++ [⟨sid, "lobby", hostName, none, now⟩] }
    if db.participants.any (fun p => p.id == pid) then
      ⟨.error (.serverError "UNIQUE constraint failed: participants.id"), db1, [], 0⟩
    else
      ⟨.ok (sid, pid),
       { db1 with participants := db1.participants ++ [⟨pid, sid, hostName, none, false, now⟩] },
       [], 0⟩

/-- `POST /api/session/:id/join` (`JoinSession`): validate the name, check
the session exists, insert the participant, emit `participant_joined`. -/
def joinSession (db : DB) (sid pid : String) (now : Nat) (nameRaw : JSValue) :
    OpOut String :=
  let name := sanitize nameRaw
  if name = "" then
    ⟨.error (.badRequest "Name is required"), db, [], 0⟩
  else
    match findSession db sid with
    | none => ⟨.error (.notFound "Session not found"), db, [], 0⟩
    | some _ =>
      if db.participants.any (fun p => p.id == pid) then
        ⟨.error (.serverError "UNIQUE constraint failed: participants.id"), db, [], 0⟩
      else
        ⟨.ok pid,
         { db with participants := db.participants ++ [⟨pid, sid, name, none, false, now⟩] },
         [.participant_joined name], 0⟩

/-- `POST /api/session/:id/generate` (`StartQuiz`): 404 when the session is
missing, otherwise unconditionally `UPDATE status = collecting` and emit
`questions_ready`. -/
def startQuiz (db : DB) (sid : String) : OpOut Unit :=
  match findSession db sid with
  | none => ⟨.error (.notFound "Session not found"), db, [], 0⟩
  | some _ =>
    ⟨.ok (), setSessionStatus db sid "collecting", [.questions_ready], 0⟩

/-- Result of the synchronous prefix of the submit handler (everything the
event loop runs before the `await generateResults` suspension point). -/
structure Phase1Out where
  db : DB
  events : List Event
  resp : Except HttpError Bool
  snapshot : Option (List ParticipantRow)

/-- Lines 399-417 of the submit handler, which run atomically on the event
loop: look up the participant, record answers and completed, re-read the
session and full roster, set status to complete when all completed, emit
`answer_submitted`, and decide whether this call synthesizes (roster all
completed and the just-read status is not complete).  `snapshot` is the
roster retained for the synthesis call; reading `.status` of a missing
session is a thrown `TypeError`. -/
def submitPhase1 (db : DB) (sid pid : String) (ansStr : String) : Phase1Out :=
  match db.participants.find? (fun p => p.id == pid && p.session_id == sid) with
  | none => ⟨db, [], .error (.notFound "Participant not found"), none⟩
  | some participant =>
    let db1 := markParticipant db pid ansStr
    let sessionQ := findSession db1 sid
    let roster := sessionParticipants db1 sid
    let allCompleted := roster.all (fun p => p.completed)
    let db2 := if allCompleted then setSessionStatus db1 sid "complete" else db1
    let evs := [Event.answer_submitted participant.name]
    match sessionQ with
    | none => ⟨db2, evs, .error (.serverError "TypeError: session is undefined"), none⟩
    | some session =>
      if allCompleted && (session.status != "complete") then
        ⟨db2, evs, .ok allCompleted, some roster⟩
      else
        ⟨db2, evs, .ok allCompleted, none⟩

/-- Lines 418-420 of the submit handler: `await generateResults(participants)`
on the phase-1 roster snapshot, then persist results and status and emit
`results_ready`; a thrown synthesis error leaves both writes unexecuted. -/
def submitPhase2 (parse : String → Option Json) (stringify : Json → String)
    (db : DB) (sid : String) (snapshot : List ParticipantRow) (ai : Option String) :
    DB × List Event × Except HttpError Unit :=
  match generateResults parse snapshot ai with
  | .error e => (db, [], .error (.serverError e))
  | .ok r => (setSessionResults db sid (stringify r) "complete", [.results_ready], .ok ())

/-- `POST /api/session/:id/submit` (`SubmitAnswers`) run to completion:
phase 1, then phase 2 when phase 1 decided to synthesize.  The response
payload `ok b` stands for `{success: true, allCompleted: b}`. -/
def submitAnswers (parse : String → Option Json) (stringify : Json → String)
    (db : DB) (sid pid : String) (answers : Json) (ai : Option String) : OpOut Bool :=
  let ph1 := submitPhase1 db sid pid (stringify answers)
  match ph1.snapshot with
  | none => ⟨ph1.resp, ph1.db, ph1.events, 0⟩
  | some roster =>
    match submitPhase2 parse stringify ph1.db sid roster ai with
    | (db2, evs2, .ok ()) => ⟨ph1.resp, db2, ph1.events ++ evs2, 1⟩
    | (db2, evs2, .error e) => ⟨.error e, db2, ph1.events ++ evs2, 1⟩

/-- `SELECT * FROM participants WHERE session_id = ? AND completed = 1`. -/
def completedParticipants (db : DB) (sid : String) : List ParticipantRow :=
  db.participants.filter (fun p => p.session_id == sid && p.completed)

/-- `POST /api/session/:id/close` (`CloseEarly`): 404 when the session is
missing, 400 when no participant has completed, otherwise synthesize from
the completed subset, overwrite results and status, emit `results_ready`. -/
def closeEarly (parse : String → Option Json) (stringify : Json → String)
    (db : DB) (sid : String) (ai : Option String) : OpOut Unit :=
  match findSession db sid with
  | none => ⟨.error (.notFound "Session not found"), db, [], 0⟩
  | some _ =>
    let ps := completedParticipants db sid
    if ps.isEmpty then
      ⟨.error (.badRequest "No completed participants"), db, [], 0⟩
    else
      match generateResults parse ps ai with
      | .error e => ⟨.error (.serverError e), db, [], 1⟩
      | .ok r =>
        ⟨.ok (), setSessionResults db sid (stringify r) "complete", [.results_ready], 1⟩

/-- `cleanupOldSessions`: delete participants whose owning session is older
than 24 hours, then the sessions themselves. -/
def cleanupOldSessions (db : DB) (now : Nat) : DB :=
  let cutoff := now - 24 * 60 * 60
  { sessions := db.sessions.filter (fun s => ! decide (s.created_at < cutoff)),
    participants := db.participants.filter (fun p =>
      ! db.sessions.any (fun s => s.id == p.session_id && decide (s.created_at < cutoff))) }

/-- One externally drivable operation of the system. -/
inductive Op where
  | create (sid pid : String) (now : Nat) (hostName : JSValue)
  | join (sid pid : String) (now : Nat) (name : JSValue)
  | start (sid : String)
  | submit (sid pid : String) (answers : Json) (ai : Option String)
  | close (sid : String) (ai : Option String)
  | cleanup (now : Nat)
  | getSession (sid : String)
  | getResults (sid : String)

/-- Whether the operation is `StartQuiz` on this session. -/
def Op.isStartOn : Op → String → Bool
  | .start t, sid => t == sid
  | _, _ => false

/-- Whether the operation is the retention sweep. -/
def Op.isCleanup : Op → Bool
  | .cleanup _ => true
  | _ => false

/-- Whether the operation is `SubmitAnswers` for this participant id. -/
def Op.isSubmitFor : Op → String → Bool
  | .submit _ p _ _, pid => p == pid
  | _, _ => false

/-- The state transformer of one operation (reads leave the store as is). -/
def applyOp (parse : String → Option Json) (stringify : Json → String)
    (db : DB) : Op → DB
  | .create sid pid now h => (createSession db sid pid now h).db
  | .join sid pid now n => (joinSession db sid pid now n).db
  | .start sid => (startQuiz db sid).db
  | .submit sid pid ans ai => (submitAnswers parse stringify db sid pid ans ai).db
  | .close sid ai => (closeEarly parse stringify db sid ai).db
  | .cleanup now => cleanupOldSessions db now
  | .getSession _ => db
  | .getResults _ => db

/-- Run a sequence of operations from a starting store. -/
def runOps (parse : String → Option Json) (stringify : Json → String)
    (db : DB) (ops : List Op) : DB :=
  ops.foldl (applyOp parse stringify) db

/-- Configuration of two concurrent submit calls on the same session.
Program counter 0 = handler not yet scheduled, 1 = suspended at the
`await generateResults` point with a decided synthesis and a retained
roster snapshot, 2 = finished. -/
structure RaceConfig where
  db : DB
  pcA : Nat
  pcB : Nat
  snapA : List ParticipantRow
  snapB : List ParticipantRow
  synths : Nat

/-- Run one thread of a submit call by one atomic event-loop segment:
from pc 0 execute phase 1 (suspending only when it decided to synthesize),
from pc 1 execute phase 2 and count the synthesizer invocation. -/
def threadStep (parse : String → Option Json) (stringify : Json → String)
    (sid pid : String) (ans : Json) (ai : Option String)
    (db : DB) (pc : Nat) (snap : List ParticipantRow) (synths : Nat) :
    DB × Nat × List ParticipantRow × Nat :=
  if pc = 0 then
    let ph := submitPhase1 db sid pid (stringify ans)
    match ph.snapshot with
    | some roster => (ph.db, 1, roster, synths)
    | none => (ph.db, 2, snap, synths)
  else if pc = 1 then
    let out := submitPhase2 parse stringify db sid snap ai
    (out.1, 2, snap, synths + 1)
  else (db, pc, snap, synths)

/-- One scheduler step of the two-submitter race: `true` schedules call A,
`false` schedules call B. -/
def raceStep (parse : String → Option Json) (stringify : Json → String)
    (sid pidA : String) (ansA : Json) (aiA : Option String)
    (pidB : String) (ansB : Json) (aiB : Option String)
    (cfg : RaceConfig) (who : Bool) : RaceConfig :=
  if who then
    let r := threadStep parse stringify sid pidA ansA aiA cfg.db cfg.pcA cfg.snapA cfg.synths
    { cfg with db := r.1, pcA := r.2.1, snapA := r.2.2.1, synths := r.2.2.2 }
  else
    let r := threadStep parse stringify sid pidB ansB aiB cfg.db cfg.pcB cfg.snapB cfg.synths
    { cfg with db := r.1, pcB := r.2.1, snapB := r.2.2.1, synths := r.2.2.2 }

/-- Run the race under an arbitrary interleaving schedule. -/
def raceRun (parse : String → Option Json) (stringify : Json → String)
    (sid pidA : String) (ansA : Json) (aiA : Option String)
    (pidB : String) (ansB : Json) (aiB : Option String)
    (cfg : RaceConfig) (sched : List Bool) : RaceConfig :=
  sched.foldl (raceStep parse stringify sid pidA ansA aiA pidB ansB aiB) cfg

/-- The initial race configuration over a store. -/
def raceInit (db : DB) : RaceConfig := ⟨db, 0, 0, [], [], 0⟩

/-- Every stored answers blob of the list re-parses (what `JSON.parse`
guarantees for blobs written by `JSON.stringify`, and for the `"\x7b\x7d"`
default used when `answers` is null). -/
def answersParseable (parse : String → Option Json) (ps : List ParticipantRow) : Prop :=
  ∀ p ∈ ps, (parse (p.answers.getD emptyObjStr)).isSome

/-- The count of threads suspended at their synthesis point. -/
def pendCount (cfg : RaceConfig) : Nat :=
  (if cfg.pcA = 1 then 1 else 0) + (if cfg.pcB = 1 then 1 else 0)

/-- Race invariant: at most one synthesis is done or pending, and once one
is, the session status is already complete. -/
def RaceInv (sid : String) (cfg : RaceConfig) : Prop :=
  cfg.synths + pendCount cfg ≤ 1 ∧
  (1 ≤ cfg.synths + pendCount cfg → sessionStatus cfg.db sid = some "complete")

/-- Tails of the five entities produced by `escapeHtml`. -/
def entityTails : List (List Char) :=
  ["amp;".data, "lt;".data, "gt;".data, "quot;".data, "#x27;".data]

/-- Every ampersand in the character list begins a complete entity. -/
def ampEscaped : List Char → Bool
  | [] => true
  | c :: rest =>
    if c = ampChar then entityTails.any (fun t => t.isPrefixOf rest) && ampEscaped rest
    else ampEscaped rest

/-- 49 letters, then a space, then a letter: the 50-cut exposes the space. -/
def inpTrail : String := ⟨List.replicate 49 'a' ++ [' ', 'b']⟩

/-- 48 letters then an ampersand then a letter: the 50-cut truncates the
produced entity, leaving a bare ampersand. -/
def inpAmp : String := ⟨List.replicate 48 'a' ++ [ampChar, 'x']⟩

/-- The length of the `individual_writeups` array of a synthesis outcome. -/
def writeupsCountOf (e : Except String Json) : Option Nat :=
  match e with
  | .ok j =>
    match j.lookup "individual_writeups" with
    | some (.arr l) => some l.length
    | _ => none
  | .error _ => none

/-- The `individual_writeups` array of a synthesis outcome. -/
def writeupsOf (e : Except String Json) : Option (List Json) :=
  match e with
  | .ok j =>
    match j.lookup "individual_writeups" with
    | some (.arr l) => some l
    | _ => none
  | .error _ => none

/-- The length of the `recommendations` array of a synthesis outcome. -/
def recsCountOf (e : Except String Json) : Option Nat :=
  match e with
  | .ok j =>
    match j.lookup "recommendations" with
    | some (.arr l) => some l.length
    | _ => none
  | .error _ => none

/-- The `group_summary` string of a synthesis outcome. -/
def summaryOf (e : Except String Json) : Option String :=
  match e with
  | .ok j =>
    match j.lookup "group_summary" with
    | some (.str s) => some s
    | _ => none
  | .error _ => none

/-- Position of a status in the forward order lobby, collecting, complete. -/
def statusRank (s : String) : Nat :=
  if s = "lobby" then 0 else if s = "collecting" then 1 else if s = "complete" then 2 else 0

/-- Primary-key uniqueness of both tables. -/
def InvIds (db : DB) : Prop :=
  (db.sessions.map (fun s => s.id)).Nodup ∧
  (db.participants.map (fun p => p.id)).Nodup

/-- Reachable-store invariant: unique ids, a complete session has stored
results, and a completed participant has a re-parseable answers blob. -/
def InvDB (parse : String → Option Json) (db : DB) : Prop :=
  InvIds db ∧
  (∀ s ∈ db.sessions, s.status = "complete" → s.results.isSome) ∧
  (∀ p ∈ db.participants, p.completed = true → (parse (p.answers.getD emptyObjStr)).isSome)

/-- A concrete `JSON.parse` model for witness runs: it understands the two
blobs `demoStringify` can produce. -/
def demoParse : String → Option Json := fun s =>
  if s = emptyObjStr then some (Json.obj [])
  else if s = "null" then some Json.null
  else none

/-- A concrete `JSON.stringify` model for witness runs. -/
def demoStringify : Json → String := fun j =>
  match j with
  | .null => "null"
  | _ => emptyObjStr

/-- A completed participant row used in witness and counterexample runs. -/
def pDemo : ParticipantRow := ⟨"pd1", "sd1", "Alice", none, true, 0⟩

/-- A one-participant collecting session, right before the last submit. -/
def dbW : DB :=
  ⟨[⟨"s1", "collecting", "Alice", none, 0⟩],
   [⟨"p1", "s1", "Alice", none, false, 0⟩]⟩

/-- A collecting session with one completed and one pending participant. -/
def dbW8 : DB :=
  ⟨[⟨"s1", "collecting", "Alice", none, 0⟩],
   [⟨"p1", "s1", "Alice", some "null", true, 0⟩,
    ⟨"p2", "s1", "Bob", none, false, 0⟩]⟩

/-- Create a session, start the quiz, and let the only participant submit:
the session completes and stores results. -/
def completeRunOps : List Op :=
  [.create "s1" "h1" 0 (.str "Alice"), .start "s1", .submit "s1" "h1" .null none]

/-- `completeRunOps` followed by a second `StartQuiz` on the now-complete
session. -/
def c4Ops : List Op := completeRunOps ++ [.start "s1"]

/-- The store after `completeRunOps` under the demo JSON model. -/
def dbComplete : DB := runOps demoParse demoStringify emptyDB completeRunOps

/-- `participantData` succeeds on parseable rows and keeps the row names
in order. -/
theorem participantData_ok (parse : String → Option Json)
    (ps : List ParticipantRow) (h : answersParseable parse ps) :
    ∃ pdata, participantData parse ps = .ok pdata ∧
      pdata.map Prod.fst = ps.map (fun p => p.name) := by
  induction ps with
  | nil => exact ⟨[], rfl, rfl⟩
  | cons p rest ih =>
    have hp : (parse (p.answers.getD emptyObjStr)).isSome := h p (by simp)
    obtain ⟨v, hv⟩ := Option.isSome_iff_exists.mp hp
    obtain ⟨pd, hpd, hnames⟩ := ih (fun q hq => h q (by simp [hq]))
    refine ⟨(p.name, v) :: pd, ?_, ?_⟩
    · simp only [participantData, participantDatum, hv, hpd]; rfl
    · simp [hnames]

/-- `generateResults` returns a value (never throws) on parseable rows. -/
theorem generateResults_ok (parse : String → Option Json)
    (ps : List ParticipantRow) (ai : Option String)
    (h : answersParseable parse ps) :
    ∃ j, generateResults parse ps ai = .ok j := by
  obtain ⟨pd, hpd, -⟩ := participantData_ok parse ps h
  cases ai with
  | none => exact ⟨unavailableFallback pd, by simp only [generateResults, hpd]; rfl⟩
  | some result =>
    cases hs : jsonSpan result with
    | none => exact ⟨pendingFallback, by simp only [generateResults, hpd, hs]; rfl⟩
    | some span =>
      cases hp : parse span with
      | none => exact ⟨generatedFallback, by simp only [generateResults, hpd, hs, hp]; rfl⟩
      | some j => exact ⟨j, by simp only [generateResults, hpd, hs, hp]; rfl⟩

/-- Characters of a single-character global replace come from the
replacement string or are untouched original characters. -/
theorem mem_replaceAllChar {c : Char} {r s : String} {x : Char}
    (hx : x ∈ (replaceAllChar c r s).data) : x ∈ r.data ∨ (x ∈ s.data ∧ x ≠ c) := by
  have hx' : x ∈ (s.data.map (fun y => if y = c then r.data else [y])).flatten := hx
  rcases List.mem_flatten.mp hx' with ⟨l', hl', hxl⟩
  rcases List.mem_map.mp hl' with ⟨y, hy, rfl⟩
  by_cases hyc : y = c
  · left; simpa [hyc] using hxl
  · right
    have hxy : x = y := by simpa [hyc] using hxl
    subst hxy
    exact ⟨hy, hyc⟩

/-- A character that is not part of any produced entity and is one of the
four escaped non-ampersand specials never survives `escapeHtml`. -/
theorem escapeHtml_not_mem (s : String) (t : Char)
    (h1 : t ∉ "&#x27;".data) (h2 : t ∉ "&quot;".data) (h3 : t ∉ "&gt;".data)
    (h4 : t ∉ "&lt;".data) (h5 : t ∉ "&amp;".data)
    (ht : t = aposChar ∨ t = quotChar ∨ t = '>' ∨ t = '<') :
    t ∉ (escapeHtml s).data := by
  intro hx
  rcases mem_replaceAllChar hx with h | ⟨hx, hna⟩
  · exact h1 h
  rcases mem_replaceAllChar hx with h | ⟨hx, hnq⟩
  · exact h2 h
  rcases mem_replaceAllChar hx with h | ⟨hx, hng⟩
  · exact h3 h
  rcases mem_replaceAllChar hx with h | ⟨hx, hnl⟩
  · exact h4 h
  rcases mem_replaceAllChar hx with h | ⟨hx, hnm⟩
  · exact h5 h
  rcases ht with rfl | rfl | rfl | rfl
  exacts [hna rfl, hnq rfl, hng rfl, hnl rfl]

/-- Trimming only removes characters. -/
theorem mem_of_mem_jsTrim {s : String} {x : Char} (hx : x ∈ (jsTrim s).data) :
    x ∈ s.data := by
  have h1 : x ∈ ((s.data.dropWhile isJsWhitespace).reverse.dropWhile
      isJsWhitespace).reverse := hx
  have h2 := List.mem_reverse.mp h1
  have h3 := (List.dropWhile_suffix isJsWhitespace).subset h2
  have h4 := List.mem_reverse.mp h3
  exact (List.dropWhile_suffix isJsWhitespace).subset h4

/-- The head of a `dropWhile` result fails the predicate. -/
theorem head?_dropWhile_not {α : Type} (p : α → Bool) (l : List α) {c : α}
    (h : (l.dropWhile p).head? = some c) : p c = false := by
  induction l with
  | nil => simp [List.dropWhile] at h
  | cons a t ih =>
    cases hpa : p a with
    | true =>
      rw [List.dropWhile_cons, hpa] at h
      exact ih (by simpa using h)
    | false =>
      rw [List.dropWhile_cons, hpa] at h
      simp at h
      rcases h with ⟨rfl, -⟩
      exact hpa

/-- A nonempty `dropWhile` result keeps the last element. -/
theorem getLast?_dropWhile {α : Type} (p : α → Bool) (l : List α)
    (h : l.dropWhile p ≠ []) : (l.dropWhile p).getLast? = l.getLast? := by
  induction l with
  | nil => simp [List.dropWhile] at h
  | cons a t ih =>
    cases hpa : p a with
    | false => rw [List.dropWhile_cons, hpa]; simp
    | true =>
      rw [List.dropWhile_cons, hpa] at h ⊢
      simp only [if_true] at h ⊢
      have hne : t ≠ [] := by
        intro h0
        subst h0
        simp [List.dropWhile] at h
      rw [ih (by simpa using h)]
      cases t with
      | nil => exact absurd rfl hne
      | cons b u => simp [List.getLast?_cons]

/-- The head of a trimmed string is not whitespace. -/
theorem head?_jsTrim_not_ws {s : String} {c : Char}
    (h : (jsTrim s).data.head? = some c) : isJsWhitespace c = false := by
  have h1 : ((s.data.dropWhile isJsWhitespace).reverse.dropWhile
      isJsWhitespace).reverse.head? = some c := h
  rw [List.head?_reverse] at h1
  have hne : (s.data.dropWhile isJsWhitespace).reverse.dropWhile
      isJsWhitespace ≠ [] := by
    intro h0
    rw [h0] at h1
    simp at h1
  rw [getLast?_dropWhile _ _ hne, List.getLast?_reverse] at h1
  exact head?_dropWhile_not _ _ h1

/-- C7 counterexample.  The claim says the sanitized output never has
leading or trailing whitespace and every special character is left
entity-escaped; but escaping runs before the 50-character cut, so the cut
can expose a trailing space (`inpTrail`) and can truncate an entity,
leaving a bare ampersand (`inpAmp`). -/
theorem sanitizeCounterexample :
    (sanitize (.str inpTrail)).data.getLast? = some ' ' ∧
    ampEscaped (sanitize (.str inpAmp)).data = false := by
  constructor
  · decide
  · decide

/-- C7 (amended): for every input string the sanitized output has length
at most 50, contains no raw less-than, greater-than, double-quote or
apostrophe character, and does not start with whitespace.  (Trailing
whitespace and a truncated trailing entity can survive the 50-cut.) -/
theorem sanitizeBoundsAmended (s : String) :
    (sanitize (.str s)).length ≤ 50 ∧
    (sanitize (.str s)).data.contains '<' = false ∧
    (sanitize (.str s)).data.contains '>' = false ∧
    (sanitize (.str s)).data.contains quotChar = false ∧
    (sanitize (.str s)).data.contains aposChar = false ∧
    isJsWhitespace ((sanitize (.str s)).data.headD 'a') = false := by
  have hdata : (sanitize (.str s)).data = (jsTrim (escapeHtml s)).data.take 50 := rfl
  have hmem : ∀ t : Char, t ∈ (sanitize (.str s)).data → t ∈ (escapeHtml s).data := by
    intro t ht
    rw [hdata] at ht
    exact mem_of_mem_jsTrim (List.mem_of_mem_take ht)
  have hnot : ∀ t : Char,
      (t = aposChar ∨ t = quotChar ∨ t = '>' ∨ t = '<') →
      t ∉ "&#x27;".data → t ∉ "&quot;".data → t ∉ "&gt;".data → t ∉ "&lt;".data →
      t ∉ "&amp;".data →
      (sanitize (.str s)).data.contains t = false := by
    intro t ht h1 h2 h3 h4 h5
    rw [Bool.eq_false_iff]
    intro hc
    exact escapeHtml_not_mem s t h1 h2 h3 h4 h5 ht
      (hmem t (List.elem_iff.mp hc))
  refine ⟨?_, ?_, ?_, ?_, ?_, ?_⟩
  · rw [show (sanitize (.str s)).length =
        ((jsTrim (escapeHtml s)).data.take 50).length from rfl]
    rw [List.length_take]
    exact min_le_left _ _
  · exact hnot '<' (by simp) (by decide) (by decide) (by decide) (by decide) (by decide)
  · exact hnot '>' (by simp) (by decide) (by decide) (by decide) (by decide) (by decide)
  · exact hnot quotChar (by simp) (by decide) (by decide) (by decide) (by decide) (by decide)
  · exact hnot aposChar (by simp) (by decide) (by decide) (by decide) (by decide) (by decide)
  · rw [List.headD_eq_head?_getD, hdata, List.head?_take]
    simp only [if_neg (by decide : ¬ (50 = 0))]
    cases hh : (jsTrim (escapeHtml s)).data.head? with
    | none => decide
    | some c => simpa using head?_jsTrim_not_ws hh

/-- C10: a non-string `name`/`hostName` body field sanitizes to the empty
string, so both CreateSession and JoinSession answer 400 with an error
body, change nothing, emit nothing, and never reach an INSERT. -/
theorem nonStringNameRejected (v : JSValue) (h : v.isStr = false) :
    sanitize v = "" ∧
    (∀ db sid pid now, createSession db sid pid now v =
        ⟨.error (.badRequest "Name is required"), db, [], 0⟩) ∧
    (∀ db sid pid now, joinSession db sid pid now v =
        ⟨.error (.badRequest "Name is required"), db, [], 0⟩) := by
  have hs : sanitize v = "" := by
    cases v <;> first | rfl | simp [JSValue.isStr] at h
  refine ⟨hs, ?_, ?_⟩
  · intro db sid pid now
    simp [createSession, hs]
  · intro db sid pid now
    simp [joinSession, hs]

/-- C10 witness: a numeric name field is rejected by CreateSession. -/
theorem nonStringNameRejectedWitness :
    JSValue.isStr (.num 3) = false ∧
    sanitize (.num 3) = "" ∧
    createSession emptyDB "s1" "p1" 0 (.num 3) =
      ⟨.error (.badRequest "Name is required"), emptyDB, [], 0⟩ := by
  have h := nonStringNameRejected (.num 3) (by decide)
  exact ⟨by decide, h.1, h.2.1 emptyDB "s1" "p1" 0⟩

/-- C5 counterexample.  The claim says unparsable completion text also
yields one `individual_writeups` entry per input participant; but the
no-JSON-span fallback (`Analysis pending`) carries an empty
`individual_writeups` array even for one input participant. -/
theorem synthFallbackCounterexample :
    writeupsCountOf (generateResults demoParse [pDemo] (some "xyz")) = some 0 ∧
    [pDemo].length = 1 := by
  constructor
  · rfl
  · rfl

/-- C5 (amended): with parseable stored answers, every fallback has empty
`recommendations` and a non-empty `group_summary`; when the completion
call returns null the fallback carries exactly one placeholder
`individual_writeups` entry per input participant, but when it returns
text with no parsable JSON object the `individual_writeups` array is
empty. -/
theorem synthFallbackAmended (parse : String → Option Json)
    (ps : List ParticipantRow) (hans : answersParseable parse ps) :
    (writeupsOf (generateResults parse ps none) =
        some (ps.map (fun p => fallbackWriteup p.name)) ∧
     recsCountOf (generateResults parse ps none) = some 0 ∧
     summaryOf (generateResults parse ps none) =
        some "Could not generate recommendations. Check server configuration.") ∧
    (∀ text : String,
      (jsonSpan text = none ∨ ∃ span, jsonSpan text = some span ∧ parse span = none) →
      writeupsCountOf (generateResults parse ps (some text)) = some 0 ∧
      recsCountOf (generateResults parse ps (some text)) = some 0 ∧
      ∃ g, summaryOf (generateResults parse ps (some text)) = some g ∧ g ≠ "") := by
  obtain ⟨pd, hpd, hnames⟩ := participantData_ok parse ps hans
  have hgen : generateResults parse ps none = .ok (unavailableFallback pd) := by
    simp only [generateResults, hpd]; rfl
  constructor
  · refine ⟨?_, ?_, ?_⟩
    · rw [hgen]
      show some (pd.map (fun d => fallbackWriteup d.1)) = _
      rw [show pd.map (fun d => fallbackWriteup d.1) =
            (pd.map Prod.fst).map fallbackWriteup by rw [List.map_map]; rfl,
          hnames, List.map_map]
      rfl
    · rw [hgen]; rfl
    · rw [hgen]; rfl
  · intro text hfail
    rcases hfail with hspan | ⟨span, hspan, hparse⟩
    · have hg : generateResults parse ps (some text) = .ok pendingFallback := by
        simp only [generateResults, hpd, hspan]; rfl
      exact ⟨by rw [hg]; rfl, by rw [hg]; rfl,
             "Analysis pending", by rw [hg]; rfl, by decide⟩
    · have hg : generateResults parse ps (some text) = .ok generatedFallback := by
        simp only [generateResults, hpd, hspan, hparse]; rfl
      exact ⟨by rw [hg]; rfl, by rw [hg]; rfl,
             "Analysis generated", by rw [hg]; rfl, by decide⟩

/-- C5 witness: the null-service fallback carries one writeup for the one
input participant, and the unparsable-text fallback carries zero. -/
theorem synthFallbackAmendedWitness :
    answersParseable demoParse [pDemo] ∧
    writeupsOf (generateResults demoParse [pDemo] none) =
      some ([pDemo].map (fun p => fallbackWriteup p.name)) ∧
    recsCountOf (generateResults demoParse [pDemo] none) = some 0 := by
  have hans : answersParseable demoParse [pDemo] := by
    intro p hp
    rw [List.mem_singleton] at hp
    subst hp
    rfl
  have h := synthFallbackAmended demoParse [pDemo] hans
  exact ⟨hans, h.1.1, h.1.2.1⟩

/-- C6: on participant rows whose stored answers are null or re-parseable,
synthesis never throws past its boundary: for null, unparsable and
parsable completion outcomes alike it returns a usable object. -/
theorem generateResultsTotal (parse : String → Option Json)
    (ps : List ParticipantRow) (ai : Option String)
    (hempty : (parse emptyObjStr).isSome)
    (hans : ∀ p ∈ ps, p.answers = none ∨ ∃ a, p.answers = some a ∧ (parse a).isSome) :
    ∃ j, generateResults parse ps ai = .ok j := by
  apply generateResults_ok
  intro p hp
  rcases hans p hp with h | ⟨a, ha, hpa⟩
  · simpa [h] using hempty
  · simpa [ha] using hpa

/-- C6 witness: synthesis returns a value on a concrete unparsable
completion outcome. -/
theorem generateResultsTotalWitness :
    (demoParse emptyObjStr).isSome = true ∧
    ∃ j, generateResults demoParse [pDemo] (some "xyz") = .ok j := by
  refine ⟨by decide, generateResultsTotal demoParse [pDemo] (some "xyz") (by decide) ?_⟩
  intro p hp
  rw [List.mem_singleton] at hp
  subst hp
  left
  rfl

/-- `find?` commutes with mapping a function that cannot change the
predicate. -/
theorem find?_map_pred_stable {α : Type} (f : α → α) (p : α → Bool) (l : List α)
    (hf : ∀ x, p (f x) = p x) :
    (l.map f).find? p = (l.find? p).map f := by
  induction l with
  | nil => rfl
  | cons x xs ih =>
    cases hx : p x with
    | true =>
      rw [List.map_cons, List.find?_cons_of_pos _ (by rw [hf]; exact hx),
          List.find?_cons_of_pos _ hx]
      rfl
    | false =>
      rw [List.map_cons, List.find?_cons_of_neg _ (by rw [hf]; simp [hx]),
          List.find?_cons_of_neg _ (by simp [hx])]
      exact ih

/-- Session lookup after a status UPDATE. -/
theorem findSession_setSessionStatus (db : DB) (sid st t : String) :
    findSession (setSessionStatus db sid st) t =
      (findSession db t).map
        (fun s => if s.id == sid then { s with status := st } else s) := by
  apply find?_map_pred_stable
  intro x
  by_cases hx : x.id == sid <;> simp [hx]

/-- Session lookup after a results+status UPDATE. -/
theorem findSession_setSessionResults (db : DB) (sid res st t : String) :
    findSession (setSessionResults db sid res st) t =
      (findSession db t).map
        (fun s => if s.id == sid then { s with results := some res, status := st } else s) := by
  apply find?_map_pred_stable
  intro x
  by_cases hx : x.id == sid <;> simp [hx]

/-- Session lookup ignores participant updates. -/
theorem findSession_markParticipant (db : DB) (pid a sid : String) :
    findSession (markParticipant db pid a) sid = findSession db sid := rfl

/-- Participant lookup after the answers UPDATE. -/
theorem participantById_markParticipant (db : DB) (pid a t : String) :
    participantById (markParticipant db pid a) t =
      (participantById db t).map
        (fun q => if q.id == pid then { q with answers := some a, completed := true } else q) := by
  apply find?_map_pred_stable
  intro x
  by_cases hx : x.id == pid <;> simp [hx]

/-- Phase 1 when the participant lookup fails: 404, nothing happens. -/
theorem submitPhase1_notFound (db : DB) (sid pid astr : String)
    (h : db.participants.find? (fun q => q.id == pid && q.session_id == sid) = none) :
    submitPhase1 db sid pid astr =
      ⟨db, [], .error (.notFound "Participant not found"), none⟩ := by
  unfold submitPhase1
  rw [h]

/-- Phase 1 when the participant exists but its session row is gone:
reading `.status` of `undefined` throws after the writes already ran. -/
theorem submitPhase1_noSession (db : DB) (sid pid astr : String) (p : ParticipantRow)
    (hp : db.participants.find? (fun q => q.id == pid && q.session_id == sid) = some p)
    (hs : findSession db sid = none) :
    submitPhase1 db sid pid astr =
      ⟨if (sessionParticipants (markParticipant db pid astr) sid).all
            (fun q => q.completed)
        then setSessionStatus (markParticipant db pid astr) sid "complete"
        else markParticipant db pid astr,
       [Event.answer_submitted p.name],
       .error (.serverError "TypeError: session is undefined"), none⟩ := by
  simp only [submitPhase1, hp]
  rw [show findSession (markParticipant db pid astr) sid = none from hs]

/-- Phase 1 when participant and session both exist. -/
theorem submitPhase1_found (db : DB) (sid pid astr : String)
    (p : ParticipantRow) (sess : SessionRow)
    (hp : db.participants.find? (fun q => q.id == pid && q.session_id == sid) = some p)
    (hs : findSession db sid = some sess) :
    submitPhase1 db sid pid astr =
      ⟨if (sessionParticipants (markParticipant db pid astr) sid).all
            (fun q => q.completed)
        then setSessionStatus (markParticipant db pid astr) sid "complete"
        else markParticipant db pid astr,
       [Event.answer_submitted p.name],
       .ok ((sessionParticipants (markParticipant db pid astr) sid).all
            (fun q => q.completed)),
       if (sessionParticipants (markParticipant db pid astr) sid).all
            (fun q => q.completed) && (sess.status != "complete")
        then some (sessionParticipants (markParticipant db pid astr) sid)
        else none⟩ := by
  simp only [submitPhase1, hp]
  rw [show findSession (markParticipant db pid astr) sid = some sess from hs]
  cases hall : (sessionParticipants (markParticipant db pid astr) sid).all
      (fun q => q.completed) with
  | true =>
    cases hst : sess.status != "complete" with
    | true => simp [hall, hst]
    | false => simp [hall, hst]
  | false => simp [hall]

/-- The whole submit call when phase 1 did not decide to synthesize. -/
theorem submitAnswers_no_snapshot (parse : String → Option Json)
    (stringify : Json → String) (db : DB) (sid pid : String) (ans : Json)
    (ai : Option String)
    (h : (submitPhase1 db sid pid (stringify ans)).snapshot = none) :
    submitAnswers parse stringify db sid pid ans ai =
      ⟨(submitPhase1 db sid pid (stringify ans)).resp,
       (submitPhase1 db sid pid (stringify ans)).db,
       (submitPhase1 db sid pid (stringify ans)).events, 0⟩ := by
  simp only [submitAnswers]
  rw [h]

/-- The whole submit call when phase 1 decided to synthesize and the
synthesis returns a value. -/
theorem submitAnswers_snapshot_ok (parse : String → Option Json)
    (stringify : Json → String) (db : DB) (sid pid : String) (ans : Json)
    (ai : Option String) (roster : List ParticipantRow) (r : Json)
    (h : (submitPhase1 db sid pid (stringify ans)).snapshot = some roster)
    (hr : generateResults parse roster ai = .ok r) :
    submitAnswers parse stringify db sid pid ans ai =
      ⟨(submitPhase1 db sid pid (stringify ans)).resp,
       setSessionResults (submitPhase1 db sid pid (stringify ans)).db sid
         (stringify r) "complete",
       (submitPhase1 db sid pid (stringify ans)).events ++ [.results_ready], 1⟩ := by
  simp only [submitAnswers]
  rw [h]
  simp only [submitPhase2]
  rw [hr]

/-- The whole submit call when phase 1 decided to synthesize and the
synthesis throws. -/
theorem submitAnswers_snapshot_err (parse : String → Option Json)
    (stringify : Json → String) (db : DB) (sid pid : String) (ans : Json)
    (ai : Option String) (roster : List ParticipantRow) (e : String)
    (h : (submitPhase1 db sid pid (stringify ans)).snapshot = some roster)
    (hr : generateResults parse roster ai = .error e) :
    submitAnswers parse stringify db sid pid ans ai =
      ⟨.error (.serverError e),
       (submitPhase1 db sid pid (stringify ans)).db,
       (submitPhase1 db sid pid (stringify ans)).events ++ [], 1⟩ := by
  simp only [submitAnswers]
  rw [h]
  simp only [submitPhase2]
  rw [hr]

/-- C2: submitting as an existing participant of an existing session
records the answers and sets completed; when the full current roster has
completed and the just-read status was not complete, this call sets status
to complete, synthesizes, persists non-null results and emits
`results_ready`; when someone has not completed it answers
`allCompleted = false` and leaves status and results unchanged. -/
theorem submitAnswersSpec (parse : String → Option Json) (stringify : Json → String)
    (db : DB) (sid pid : String) (ans : Json) (ai : Option String)
    (p : ParticipantRow) (sess : SessionRow)
    (hp : db.participants.find? (fun q => q.id == pid && q.session_id == sid) = some p)
    (hs : findSession db sid = some sess)
    (hans : answersParseable parse
      (sessionParticipants (markParticipant db pid (stringify ans)) sid)) :
    (∀ q ∈ (submitAnswers parse stringify db sid pid ans ai).db.participants,
        q.id = pid → q.answers = some (stringify ans) ∧ q.completed = true) ∧
    ((sessionParticipants (markParticipant db pid (stringify ans)) sid).all
        (fun q => q.completed) = true → sess.status ≠ "complete" →
      sessionStatus (submitAnswers parse stringify db sid pid ans ai).db sid
          = some "complete" ∧
      (submitAnswers parse stringify db sid pid ans ai).synths = 1 ∧
      (∃ r, sessionResults (submitAnswers parse stringify db sid pid ans ai).db sid
          = some (some r)) ∧
      Event.results_ready ∈ (submitAnswers parse stringify db sid pid ans ai).events ∧
      (submitAnswers parse stringify db sid pid ans ai).resp = .ok true) ∧
    ((sessionParticipants (markParticipant db pid (stringify ans)) sid).all
        (fun q => q.completed) = false →
      (submitAnswers parse stringify db sid pid ans ai).resp = .ok false ∧
      sessionStatus (submitAnswers parse stringify db sid pid ans ai).db sid
          = sessionStatus db sid ∧
      sessionResults (submitAnswers parse stringify db sid pid ans ai).db sid
          = sessionResults db sid) := by
  have h1 := submitPhase1_found db sid pid (stringify ans) p sess hp hs
  have hmark : ∀ q ∈ (markParticipant db pid (stringify ans)).participants,
      q.id = pid → q.answers = some (stringify ans) ∧ q.completed = true := by
    intro q hq hqid
    rcases List.mem_map.mp hq with ⟨x, hx, rfl⟩
    by_cases hxi : x.id == pid
    · simp [hxi]
    · rw [if_neg hxi] at hqid
      exact absurd (beq_iff_eq.mpr hqid) hxi
  cases hall : (sessionParticipants (markParticipant db pid (stringify ans)) sid).all
      (fun q => q.completed) with
  | false =>
    have hsnap : (submitPhase1 db sid pid (stringify ans)).snapshot = none := by
      rw [h1]; simp [hall]
    have hout : submitAnswers parse stringify db sid pid ans ai =
        ⟨.ok false, markParticipant db pid (stringify ans),
         [Event.answer_submitted p.name], 0⟩ := by
      rw [submitAnswers_no_snapshot parse stringify db sid pid ans ai hsnap, h1]
      simp [hall]
    refine ⟨?_, ?_, ?_⟩
    · rw [hout]
      exact hmark
    · intro htrue
      simp at htrue
    · intro _
      rw [hout]
      exact ⟨rfl, rfl, rfl⟩
  | true =>
    cases hst : sess.status != "complete" with
    | false =>
      have hsnap : (submitPhase1 db sid pid (stringify ans)).snapshot = none := by
        rw [h1]; simp [hall, hst]
      have hout : submitAnswers parse stringify db sid pid ans ai =
          ⟨.ok true, setSessionStatus (markParticipant db pid (stringify ans)) sid "complete",
           [Event.answer_submitted p.name], 0⟩ := by
        rw [submitAnswers_no_snapshot parse stringify db sid pid ans ai hsnap, h1]
        simp [hall, hst]
      refine ⟨?_, ?_, ?_⟩
      · rw [hout]
        exact hmark
      · intro _ hne
        have hbne : (sess.status != "complete") = true := bne_iff_ne.mpr hne
        rw [hst] at hbne
        simp at hbne
      · intro hfalse
        simp at hfalse
    | true =>
      obtain ⟨r, hr⟩ := generateResults_ok parse
        (sessionParticipants (markParticipant db pid (stringify ans)) sid) ai hans
      have hsnap : (submitPhase1 db sid pid (stringify ans)).snapshot =
          some (sessionParticipants (markParticipant db pid (stringify ans)) sid) := by
        rw [h1]; simp [hall, hst]
      have hout : submitAnswers parse stringify db sid pid ans ai =
          ⟨.ok true,
           setSessionResults
             (setSessionStatus (markParticipant db pid (stringify ans)) sid "complete")
             sid (stringify r) "complete",
           [Event.answer_submitted p.name] ++ [.results_ready], 1⟩ := by
        rw [submitAnswers_snapshot_ok parse stringify db sid pid ans ai _ r hsnap hr, h1]
        simp [hall, hst]
      have heq : sess.id = sid := by
        have h' : List.find? (fun s => s.id == sid) db.sessions = some sess := hs
        have h'' := List.find?_some h'
        simpa using h''
      have hstat : sessionStatus (submitAnswers parse stringify db sid pid ans ai).db sid
          = some "complete" := by
        rw [hout]
        show sessionStatus (setSessionResults _ _ _ _) sid = _
        unfold sessionStatus
        rw [findSession_setSessionResults, findSession_setSessionStatus,
            show findSession (markParticipant db pid (stringify ans)) sid = some sess from hs]
        simp [heq]
      have hres : sessionResults (submitAnswers parse stringify db sid pid ans ai).db sid
          = some (some (stringify r)) := by
        rw [hout]
        show sessionResults (setSessionResults _ _ _ _) sid = _
        unfold sessionResults
        rw [findSession_setSessionResults, findSession_setSessionStatus,
            show findSession (markParticipant db pid (stringify ans)) sid = some sess from hs]
        simp [heq]
      refine ⟨?_, ?_, ?_⟩
      · rw [hout]
        exact hmark
      · intro _ _
        exact ⟨hstat, by rw [hout], ⟨stringify r, hres⟩, by rw [hout]; simp, by rw [hout]⟩
      · intro hfalse
        simp at hfalse

/-- C2 witness: the last participant of a one-person collecting session
submits; status flips to complete, one synthesis runs, results are stored
and `results_ready` fires. -/
theorem submitAnswersSpecWitness :
    sessionStatus (submitAnswers demoParse demoStringify dbW "s1" "p1" Json.null none).db "s1"
        = some "complete" ∧
    (submitAnswers demoParse demoStringify dbW "s1" "p1" Json.null none).synths = 1 ∧
    (∃ r, sessionResults
        (submitAnswers demoParse demoStringify dbW "s1" "p1" Json.null none).db "s1"
        = some (some r)) ∧
    Event.results_ready ∈
        (submitAnswers demoParse demoStringify dbW "s1" "p1" Json.null none).events ∧
    (submitAnswers demoParse demoStringify dbW "s1" "p1" Json.null none).resp = .ok true := by
  have h := submitAnswersSpec demoParse demoStringify dbW "s1" "p1" Json.null none
    ⟨"p1", "s1", "Alice", none, false, 0⟩ ⟨"s1", "collecting", "Alice", none, 0⟩
    (by decide) (by decide) (by unfold answersParseable; decide)
  exact h.2.1 (by decide) (by decide)

/-- C8: on an existing session, CloseEarly answers 400 and changes nothing
when no participant has completed; with at least one completed participant
it synthesizes from exactly the completed subset, overwrites results with
a non-null payload, sets status to complete, emits `results_ready`, and can
be re-invoked at will (each call overwrites results without error, even on
an already-complete session). -/
theorem closeEarlySpec (parse : String → Option Json) (stringify : Json → String)
    (db : DB) (sid : String) (ai : Option String) (sess : SessionRow)
    (hs : findSession db sid = some sess)
    (hans : answersParseable parse (completedParticipants db sid)) :
    (completedParticipants db sid = [] →
      closeEarly parse stringify db sid ai =
        ⟨.error (.badRequest "No completed participants"), db, [], 0⟩) ∧
    (completedParticipants db sid ≠ [] →
      ∃ r, generateResults parse (completedParticipants db sid) ai = .ok r ∧
        closeEarly parse stringify db sid ai =
          ⟨.ok (), setSessionResults db sid (stringify r) "complete",
           [.results_ready], 1⟩ ∧
        sessionStatus (closeEarly parse stringify db sid ai).db sid = some "complete" ∧
        sessionResults (closeEarly parse stringify db sid ai).db sid
            = some (some (stringify r)) ∧
        (∀ ai2, ∃ r2,
          generateResults parse (completedParticipants db sid) ai2 = .ok r2 ∧
          closeEarly parse stringify (closeEarly parse stringify db sid ai).db sid ai2 =
            ⟨.ok (), setSessionResults (closeEarly parse stringify db sid ai).db sid
                (stringify r2) "complete", [.results_ready], 1⟩)) := by
  have heq : sess.id = sid := by
    have h' : List.find? (fun s => s.id == sid) db.sessions = some sess := hs
    have h'' := List.find?_some h'
    simpa using h''
  constructor
  · intro hemp
    simp only [closeEarly, hs, hemp]
    rfl
  · intro hne
    obtain ⟨r, hr⟩ := generateResults_ok parse (completedParticipants db sid) ai hans
    have hnemp : (completedParticipants db sid).isEmpty = false := by
      cases hl : completedParticipants db sid with
      | nil => exact absurd hl hne
      | cons a t => rfl
    have hclose : closeEarly parse stringify db sid ai =
        ⟨.ok (), setSessionResults db sid (stringify r) "complete", [.results_ready], 1⟩ := by
      simp [closeEarly, hs, hnemp, hr]
    have hstat : sessionStatus (closeEarly parse stringify db sid ai).db sid
        = some "complete" := by
      rw [hclose]
      show sessionStatus (setSessionResults db sid (stringify r) "complete") sid = _
      unfold sessionStatus
      rw [findSession_setSessionResults, hs]
      simp [heq]
    have hres : sessionResults (closeEarly parse stringify db sid ai).db sid
        = some (some (stringify r)) := by
      rw [hclose]
      show sessionResults (setSessionResults db sid (stringify r) "complete") sid = _
      unfold sessionResults
      rw [findSession_setSessionResults, hs]
      simp [heq]
    refine ⟨r, hr, hclose, hstat, hres, ?_⟩
    intro ai2
    obtain ⟨r2, hr2⟩ := generateResults_ok parse (completedParticipants db sid) ai2 hans
    have hsame : completedParticipants (closeEarly parse stringify db sid ai).db sid
        = completedParticipants db sid := by
      rw [hclose]
      rfl
    have hs2 : findSession (setSessionResults db sid (stringify r) "complete") sid =
        some { sess with results := some (stringify r), status := "complete" } := by
      rw [findSession_setSessionResults, hs]
      simp [heq]
    have hnemp2 : (completedParticipants
        (setSessionResults db sid (stringify r) "complete") sid).isEmpty = false := hnemp
    have hr2x : generateResults parse
        (completedParticipants (setSessionResults db sid (stringify r) "complete") sid) ai2
        = .ok r2 := hr2
    refine ⟨r2, hr2, ?_⟩
    rw [hclose]
    show closeEarly parse stringify (setSessionResults db sid (stringify r) "complete") sid ai2
        = ⟨.ok (), setSessionResults (setSessionResults db sid (stringify r) "complete") sid
            (stringify r2) "complete", [.results_ready], 1⟩
    simp [closeEarly, hs2, hnemp2, hr2x]

/-- C8 witness: closing a session with one completed and one pending
participant succeeds, stores results, completes the session, and a second
close on the already-complete session succeeds again. -/
theorem closeEarlySpecWitness :
    completedParticipants dbW8 "s1" ≠ [] ∧
    ∃ r, generateResults demoParse (completedParticipants dbW8 "s1") none = .ok r ∧
      closeEarly demoParse demoStringify dbW8 "s1" none =
        ⟨.ok (), setSessionResults dbW8 "s1" (demoStringify r) "complete",
         [.results_ready], 1⟩ ∧
      sessionStatus (closeEarly demoParse demoStringify dbW8 "s1" none).db "s1"
          = some "complete" ∧
      sessionResults (closeEarly demoParse demoStringify dbW8 "s1" none).db "s1"
          = some (some (demoStringify r)) ∧
      (∀ ai2, ∃ r2,
        generateResults demoParse (completedParticipants dbW8 "s1") ai2 = .ok r2 ∧
        closeEarly demoParse demoStringify
            (closeEarly demoParse demoStringify dbW8 "s1" none).db "s1" ai2 =
          ⟨.ok (), setSessionResults (closeEarly demoParse demoStringify dbW8 "s1" none).db
              "s1" (demoStringify r2) "complete", [.results_ready], 1⟩) := by
  have h := closeEarlySpec demoParse demoStringify dbW8 "s1" none
    ⟨"s1", "collecting", "Alice", none, 0⟩ (by decide)
    (by unfold answersParseable; decide)
  exact ⟨by decide, h.2 (by decide)⟩

/-- A successful `find?` is unaffected by appending rows. -/
theorem find?_append_of_some {α : Type} (p : α → Bool) (l1 l2 : List α) (x : α)
    (h : l1.find? p = some x) : (l1 ++ l2).find? p = some x := by
  rw [List.find?_append, h]
  rfl

/-- A status UPDATE can only leave a session status unchanged or equal to
the written value. -/
theorem sessionStatus_setSessionStatus_cases (db : DB) (sid2 st sid s : String)
    (hpre : sessionStatus db sid = some s) :
    sessionStatus (setSessionStatus db sid2 st) sid = some s ∨
    (sid2 = sid ∧ sessionStatus (setSessionStatus db sid2 st) sid = some st) := by
  unfold sessionStatus at hpre ⊢
  rw [findSession_setSessionStatus]
  cases hf : findSession db sid with
  | none => rw [hf] at hpre; simp at hpre
  | some x =>
    rw [hf] at hpre
    have hxs : x.status = s := by simpa using hpre
    have hxsid : x.id = sid := by
      have h' : List.find? (fun y => y.id == sid) db.sessions = some x := hf
      have h'' := List.find?_some h'
      simpa using h''
    by_cases hx : x.id == sid2
    · right
      have heq2 : x.id = sid2 := by simpa using hx
      exact ⟨heq2 ▸ hxsid, by simp [heq2]⟩
    · left
      have hne2 : x.id ≠ sid2 := by simpa using hx
      simp [hne2, hxs]

/-- A results+status UPDATE can only leave a session status unchanged or
equal to the written value. -/
theorem sessionStatus_setSessionResults_cases (db : DB) (sid2 res st sid s : String)
    (hpre : sessionStatus db sid = some s) :
    sessionStatus (setSessionResults db sid2 res st) sid = some s ∨
    sessionStatus (setSessionResults db sid2 res st) sid = some st := by
  unfold sessionStatus at hpre ⊢
  rw [findSession_setSessionResults]
  cases hf : findSession db sid with
  | none => rw [hf] at hpre; simp at hpre
  | some x =>
    rw [hf] at hpre
    have hxs : x.status = s := by simpa using hpre
    by_cases hx : x.id == sid2
    · right
      have heq2 : x.id = sid2 := by simpa using hx
      simp [heq2]
    · left
      have hne2 : x.id ≠ sid2 := by simpa using hx
      simp [hne2, hxs]

/-- Mapping a key-preserving function keeps the key list duplicate-free. -/
theorem nodup_ids_map_idpres {α : Type} (key : α → String) (f : α → α) (l : List α)
    (hf : ∀ x, key (f x) = key x) (h : (l.map key).Nodup) :
    ((l.map f).map key).Nodup := by
  rw [List.map_map]
  have he : l.map (key ∘ f) = l.map key := List.map_congr_left (fun x _ => hf x)
  rw [he]
  exact h

/-- The store after a submit call has one of four shapes: untouched (404),
participant marked only, marked plus status set to complete, or marked plus
status set and results written. -/
theorem submitAnswers_db_cases (parse : String → Option Json)
    (stringify : Json → String) (db : DB) (sid2 pid2 : String) (ans : Json)
    (ai : Option String) :
    (submitAnswers parse stringify db sid2 pid2 ans ai).db = db ∨
    (submitAnswers parse stringify db sid2 pid2 ans ai).db
        = markParticipant db pid2 (stringify ans) ∨
    (submitAnswers parse stringify db sid2 pid2 ans ai).db
        = setSessionStatus (markParticipant db pid2 (stringify ans)) sid2 "complete" ∨
    ∃ r, (submitAnswers parse stringify db sid2 pid2 ans ai).db
        = setSessionResults
            (setSessionStatus (markParticipant db pid2 (stringify ans)) sid2 "complete")
            sid2 (stringify r) "complete" := by
  cases hfp : db.participants.find? (fun q => q.id == pid2 && q.session_id == sid2) with
  | none =>
    left
    have h1 := submitPhase1_notFound db sid2 pid2 (stringify ans) hfp
    have hsnap : (submitPhase1 db sid2 pid2 (stringify ans)).snapshot = none := by
      rw [h1]
    rw [submitAnswers_no_snapshot parse stringify db sid2 pid2 ans ai hsnap, h1]
  | some p =>
    cases hfs : findSession db sid2 with
    | none =>
      have h1 := submitPhase1_noSession db sid2 pid2 (stringify ans) p hfp hfs
      have hsnap : (submitPhase1 db sid2 pid2 (stringify ans)).snapshot = none := by
        rw [h1]
      rw [submitAnswers_no_snapshot parse stringify db sid2 pid2 ans ai hsnap, h1]
      by_cases hall : (sessionParticipants (markParticipant db pid2 (stringify ans)) sid2).all
          (fun q => q.completed) = true
      · right; right; left; simp [hall]
      · right; left; simp [hall]
    | some sess2 =>
      have h1 := submitPhase1_found db sid2 pid2 (stringify ans) p sess2 hfp hfs
      cases hall : (sessionParticipants (markParticipant db pid2 (stringify ans)) sid2).all
          (fun q => q.completed) with
      | false =>
        have hsnap : (submitPhase1 db sid2 pid2 (stringify ans)).snapshot = none := by
          rw [h1]; simp [hall]
        rw [submitAnswers_no_snapshot parse stringify db sid2 pid2 ans ai hsnap, h1]
        right; left; simp [hall]
      | true =>
        cases hst : sess2.status != "complete" with
        | false =>
          have hsnap : (submitPhase1 db sid2 pid2 (stringify ans)).snapshot = none := by
            rw [h1]; simp [hall, hst]
          rw [submitAnswers_no_snapshot parse stringify db sid2 pid2 ans ai hsnap, h1]
          right; right; left; simp [hall]
        | true =>
          have hsnap : (submitPhase1 db sid2 pid2 (stringify ans)).snapshot =
              some (sessionParticipants (markParticipant db pid2 (stringify ans)) sid2) := by
            rw [h1]; simp [hall, hst]
          cases hg : generateResults parse
              (sessionParticipants (markParticipant db pid2 (stringify ans)) sid2) ai with
          | ok r =>
            rw [submitAnswers_snapshot_ok parse stringify db sid2 pid2 ans ai _ r hsnap hg, h1]
            right; right; right
            exact ⟨r, by simp [hall]⟩
          | error e =>
            rw [submitAnswers_snapshot_err parse stringify db sid2 pid2 ans ai _ e hsnap hg, h1]
            right; right; left
            simp [hall]

/-- The store after a CreateSession call: untouched, session inserted only
(participant INSERT threw), or both rows inserted. -/
theorem createSession_db_cases (db : DB) (sid pid : String) (now : Nat) (h : JSValue) :
    (createSession db sid pid now h).db = db ∨
    (db.sessions.any (fun s => s.id == sid) = false ∧
      ((createSession db sid pid now h).db =
          { db with sessions := db.sessions ++ [⟨sid, "lobby", sanitize h, none, now⟩] } ∨
       (db.participants.any (fun p => p.id == pid) = false ∧
        (createSession db sid pid now h).db =
          { sessions := db.sessions ++ [⟨sid, "lobby", sanitize h, none, now⟩],
            participants := db.participants ++ [⟨pid, sid, sanitize h, none, false, now⟩] }))) := by
  by_cases hname : sanitize h = ""
  · left; simp [createSession, hname]
  · by_cases hsid : db.sessions.any (fun s => s.id == sid) = true
    · left; simp [createSession, hname, hsid]
    · have hsid' : db.sessions.any (fun s => s.id == sid) = false :=
        Bool.eq_false_iff.mpr hsid
      right
      refine ⟨hsid', ?_⟩
      by_cases hpid : db.participants.any (fun p => p.id == pid) = true
      · left; simp [createSession, hname, hsid', hpid]
      · have hpid' : db.participants.any (fun p => p.id == pid) = false :=
          Bool.eq_false_iff.mpr hpid
        right
        exact ⟨hpid', by simp [createSession, hname, hsid', hpid']⟩

/-- The store after a JoinSession call: untouched or one participant row
appended. -/
theorem joinSession_db_cases (db : DB) (sid pid : String) (now : Nat) (n : JSValue) :
    (joinSession db sid pid now n).db = db ∨
    (db.participants.any (fun p => p.id == pid) = false ∧
      (joinSession db sid pid now n).db =
        { db with participants := db.participants ++ [⟨pid, sid, sanitize n, none, false, now⟩] }) := by
  by_cases hname : sanitize n = ""
  · left; simp [joinSession, hname]
  · cases hfs : findSession db sid with
    | none => left; simp [joinSession, hname, hfs]
    | some sess =>
      by_cases hpid : db.participants.any (fun p => p.id == pid) = true
      · left; simp [joinSession, hname, hfs, hpid]
      · have hpid' : db.participants.any (fun p => p.id == pid) = false :=
          Bool.eq_false_iff.mpr hpid
        right
        exact ⟨hpid', by simp [joinSession, hname, hfs, hpid']⟩

/-- The store after a StartQuiz call: untouched (404) or status set to
collecting. -/
theorem startQuiz_db_cases (db : DB) (sid : String) :
    (startQuiz db sid).db = db ∨
    (findSession db sid).isSome = true ∧
      (startQuiz db sid).db = setSessionStatus db sid "collecting" := by
  cases hfs : findSession db sid with
  | none => left; simp [startQuiz, hfs]
  | some sess => right; exact ⟨by simp [hfs], by simp [startQuiz, hfs]⟩

/-- The store after a CloseEarly call: untouched or results+status written
from a successful synthesis over the completed subset. -/
theorem closeEarly_db_cases (parse : String → Option Json) (stringify : Json → String)
    (db : DB) (sid : String) (ai : Option String) :
    (closeEarly parse stringify db sid ai).db = db ∨
    ∃ r, generateResults parse (completedParticipants db sid) ai = .ok r ∧
      (closeEarly parse stringify db sid ai).db
        = setSessionResults db sid (stringify r) "complete" := by
  cases hfs : findSession db sid with
  | none => left; simp [closeEarly, hfs]
  | some sess =>
    by_cases hemp : (completedParticipants db sid).isEmpty = true
    · left; simp [closeEarly, hfs, hemp]
    · cases hg : generateResults parse (completedParticipants db sid) ai with
      | error e => left; simp [closeEarly, hfs, hemp, hg]
      | ok r => right; exact ⟨r, rfl, by simp [closeEarly, hfs, hemp, hg]⟩

/-- Appending a row with a fresh key keeps the key list duplicate-free. -/
theorem nodup_ids_append {α : Type} (key : α → String) (l : List α) (x : α)
    (h : (l.map key).Nodup) (hx : l.any (fun y => key y == key x) = false) :
    ((l ++ [x]).map key).Nodup := by
  rw [List.map_append, List.nodup_append]
  refine ⟨h, List.nodup_singleton _, ?_⟩
  intro a ha hb
  rcases List.mem_map.mp ha with ⟨y, hy, rfl⟩
  have hax : key y = key x := by simpa using hb
  have hany : l.any (fun y => key y == key x) = true :=
    List.any_eq_true.mpr ⟨y, hy, by simp [hax]⟩
  rw [hx] at hany
  exact Bool.false_ne_true hany

/-- Every operation preserves primary-key uniqueness. -/
theorem invIds_applyOp (parse : String → Option Json) (stringify : Json → String)
    (db : DB) (op : Op) (h : InvIds db) :
    InvIds (applyOp parse stringify db op) := by
  obtain ⟨hN1, hN2⟩ := h
  cases op with
  | create sid pid now hostName =>
    rcases createSession_db_cases db sid pid now hostName with hdb | ⟨hfresh, hdb | ⟨hfreshp, hdb⟩⟩
    · show InvIds (createSession db sid pid now hostName).db
      rw [hdb]; exact ⟨hN1, hN2⟩
    · show InvIds (createSession db sid pid now hostName).db
      rw [hdb]
      exact ⟨nodup_ids_append _ _ _ hN1 hfresh, hN2⟩
    · show InvIds (createSession db sid pid now hostName).db
      rw [hdb]
      exact ⟨nodup_ids_append _ _ _ hN1 hfresh, nodup_ids_append _ _ _ hN2 hfreshp⟩
  | join sid pid now n =>
    rcases joinSession_db_cases db sid pid now n with hdb | ⟨hfreshp, hdb⟩
    · show InvIds (joinSession db sid pid now n).db
      rw [hdb]; exact ⟨hN1, hN2⟩
    · show InvIds (joinSession db sid pid now n).db
      rw [hdb]
      exact ⟨hN1, nodup_ids_append _ _ _ hN2 hfreshp⟩
  | start sid =>
    rcases startQuiz_db_cases db sid with hdb | ⟨-, hdb⟩
    · show InvIds (startQuiz db sid).db
      rw [hdb]; exact ⟨hN1, hN2⟩
    · show InvIds (startQuiz db sid).db
      rw [hdb]
      exact ⟨nodup_ids_map_idpres _ _ _ (fun x => by by_cases hx : x.id == sid <;> simp [hx]) hN1, hN2⟩
  | submit sid pid ans ai =>
    rcases submitAnswers_db_cases parse stringify db sid pid ans ai with
      hdb | hdb | hdb | ⟨r, hdb⟩
    · show InvIds (submitAnswers parse stringify db sid pid ans ai).db
      rw [hdb]; exact ⟨hN1, hN2⟩
    · show InvIds (submitAnswers parse stringify db sid pid ans ai).db
      rw [hdb]
      exact ⟨hN1, nodup_ids_map_idpres _ _ _ (fun x => by by_cases hx : x.id == pid <;> simp [hx]) hN2⟩
    · show InvIds (submitAnswers parse stringify db sid pid ans ai).db
      rw [hdb]
      exact ⟨nodup_ids_map_idpres _ _ _ (fun x => by by_cases hx : x.id == sid <;> simp [hx]) hN1,
             nodup_ids_map_idpres _ _ _ (fun x => by by_cases hx : x.id == pid <;> simp [hx]) hN2⟩
    · show InvIds (submitAnswers parse stringify db sid pid ans ai).db
      rw [hdb]
      refine ⟨?_, nodup_ids_map_idpres _ _ _ (fun x => by by_cases hx : x.id == pid <;> simp [hx]) hN2⟩
      apply nodup_ids_map_idpres _ _ _ (fun x => by by_cases hx : x.id == sid <;> simp [hx])
      exact nodup_ids_map_idpres _ _ _ (fun x => by by_cases hx : x.id == sid <;> simp [hx]) hN1
  | close sid ai =>
    rcases closeEarly_db_cases parse stringify db sid ai with hdb | ⟨r, -, hdb⟩
    · show InvIds (closeEarly parse stringify db sid ai).db
      rw [hdb]; exact ⟨hN1, hN2⟩
    · show InvIds (closeEarly parse stringify db sid ai).db
      rw [hdb]
      exact ⟨nodup_ids_map_idpres _ _ _ (fun x => by by_cases hx : x.id == sid <;> simp [hx]) hN1, hN2⟩
  | cleanup now =>
    constructor
    · exact ((List.filter_sublist _).map _).nodup hN1
    · exact ((List.filter_sublist _).map _).nodup hN2
  | getSession sid => exact ⟨hN1, hN2⟩
  | getResults sid => exact ⟨hN1, hN2⟩

/-- Primary-key uniqueness holds in every reachable store. -/
theorem invIds_runOps (parse : String → Option Json) (stringify : Json → String)
    (ops : List Op) : InvIds (runOps parse stringify emptyDB ops) := by
  suffices h : ∀ db, InvIds db → InvIds (runOps parse stringify db ops) from
    h emptyDB ⟨List.nodup_nil, List.nodup_nil⟩
  induction ops with
  | nil => exact fun db h => h
  | cons op rest ih =>
    intro db h
    exact ih (applyOp parse stringify db op) (invIds_applyOp parse stringify db op h)

/-- Writing results together with status complete keeps the
complete-implies-results invariant. -/
theorem complete_results_setSessionResults (db : DB) (sid res : String)
    (h2 : ∀ s ∈ db.sessions, s.status = "complete" → s.results.isSome = true) :
    ∀ s ∈ (setSessionResults db sid res "complete").sessions,
      s.status = "complete" → s.results.isSome = true := by
  intro s' hs' hst
  rcases List.mem_map.mp hs' with ⟨x, hx, rfl⟩
  by_cases hxi : x.id == sid
  · simp [hxi]
  · simp only [if_neg hxi] at hst ⊢
    exact h2 x hx hst

/-- Setting status to collecting keeps the complete-implies-results
invariant. -/
theorem complete_results_setStatus_collecting (db : DB) (sid : String)
    (h2 : ∀ s ∈ db.sessions, s.status = "complete" → s.results.isSome = true) :
    ∀ s ∈ (setSessionStatus db sid "collecting").sessions,
      s.status = "complete" → s.results.isSome = true := by
  intro s' hs' hst
  rcases List.mem_map.mp hs' with ⟨x, hx, rfl⟩
  by_cases hxi : x.id == sid
  · simp [hxi] at hst
  · simp only [if_neg hxi] at hst ⊢
    exact h2 x hx hst

/-- Recording answers keeps the completed-implies-parseable invariant. -/
theorem answers_parse_mark (parse : String → Option Json) (stringify : Json → String)
    (db : DB) (pid2 : String) (ans : Json)
    (Hrt : ∀ j, (parse (stringify j)).isSome = true)
    (h3 : ∀ p ∈ db.participants, p.completed = true →
      (parse (p.answers.getD emptyObjStr)).isSome = true) :
    ∀ p ∈ (markParticipant db pid2 (stringify ans)).participants, p.completed = true →
      (parse (p.answers.getD emptyObjStr)).isSome = true := by
  intro q hq hc
  rcases List.mem_map.mp hq with ⟨x, hx, rfl⟩
  by_cases hxi : x.id == pid2
  · simpa [hxi] using Hrt ans
  · simp only [if_neg hxi] at hc ⊢
    exact h3 x hx hc

/-- When everyone on the post-mark roster has completed, every roster blob
re-parses. -/
theorem roster_parseable (parse : String → Option Json) (stringify : Json → String)
    (db : DB) (pid2 sid2 : String) (ans : Json)
    (Hrt : ∀ j, (parse (stringify j)).isSome = true)
    (h3 : ∀ p ∈ db.participants, p.completed = true →
      (parse (p.answers.getD emptyObjStr)).isSome = true)
    (hall : (sessionParticipants (markParticipant db pid2 (stringify ans)) sid2).all
      (fun q => q.completed) = true) :
    answersParseable parse
      (sessionParticipants (markParticipant db pid2 (stringify ans)) sid2) := by
  intro q hq
  have hqc : q.completed = true := List.all_eq_true.mp hall q hq
  have hq1 : q ∈ (markParticipant db pid2 (stringify ans)).participants :=
    (List.mem_filter.mp hq).1
  exact answers_parse_mark parse stringify db pid2 ans Hrt h3 q hq1 hqc

/-- Every completed participant has a re-parseable blob, for any subset of
the completed roster. -/
theorem completed_parseable (parse : String → Option Json) (db : DB) (sid : String)
    (h3 : ∀ p ∈ db.participants, p.completed = true →
      (parse (p.answers.getD emptyObjStr)).isSome = true) :
    answersParseable parse (completedParticipants db sid) := by
  intro q hq
  rcases List.mem_filter.mp hq with ⟨hq1, hq2⟩
  have hc : q.completed = true := by
    have := hq2
    simp at this
    exact this.2
  exact h3 q hq1 hc

/-- A status UPDATE whose WHERE clause matches nothing changes nothing. -/
theorem setSessionStatus_no_match (db : DB) (sid st : String)
    (h : findSession db sid = none) :
    (setSessionStatus db sid st).sessions = db.sessions := by
  unfold findSession at h
  rw [List.find?_eq_none] at h
  have he : ∀ x ∈ db.sessions,
      (if x.id == sid then { x with status := st } else x) = x := by
    intro x hx
    rw [if_neg (by simpa using h x hx)]
  show db.sessions.map _ = db.sessions
  rw [List.map_congr_left he]
  simp

/-- Every operation preserves the reachable-store invariant, as long as
`JSON.parse` accepts what `JSON.stringify` wrote. -/
theorem invDB_applyOp (parse : String → Option Json) (stringify : Json → String)
    (Hrt : ∀ j, (parse (stringify j)).isSome = true)
    (db : DB) (op : Op) (h : InvDB parse db) :
    InvDB parse (applyOp parse stringify db op) := by
  obtain ⟨⟨hN1, hN2⟩, h2, h3⟩ := h
  refine ⟨invIds_applyOp parse stringify db op ⟨hN1, hN2⟩, ?_, ?_⟩
  all_goals cases op with
  | create sid pid now hostName =>
    rcases createSession_db_cases db sid pid now hostName with hdb | ⟨-, hdb | ⟨-, hdb⟩⟩ <;>
      [skip; skip; skip] <;> rw [show (applyOp parse stringify db (Op.create sid pid now hostName)) = (createSession db sid pid now hostName).db from rfl, hdb]
    · first
      | exact h2
      | exact h3
    · first
      | (intro s hs hst
         rcases List.mem_append.mp hs with hs1 | hs1
         · exact h2 s hs1 hst
         · rw [List.mem_singleton] at hs1
           subst hs1
           simp at hst)
      | exact h3
    · first
      | (intro s hs hst
         rcases List.mem_append.mp hs with hs1 | hs1
         · exact h2 s hs1 hst
         · rw [List.mem_singleton] at hs1
           subst hs1
           simp at hst)
      | (intro p hp hc
         rcases List.mem_append.mp hp with hp1 | hp1
         · exact h3 p hp1 hc
         · rw [List.mem_singleton] at hp1
           subst hp1
           simp at hc)
  | join sid pid now n =>
    rcases joinSession_db_cases db sid pid now n with hdb | ⟨-, hdb⟩ <;>
      rw [show (applyOp parse stringify db (Op.join sid pid now n)) = (joinSession db sid pid now n).db from rfl, hdb]
    · first
      | exact h2
      | exact h3
    · first
      | exact h2
      | (intro p hp hc
         rcases List.mem_append.mp hp with hp1 | hp1
         · exact h3 p hp1 hc
         · rw [List.mem_singleton] at hp1
           subst hp1
           simp at hc)
  | start sid =>
    rcases startQuiz_db_cases db sid with hdb | ⟨-, hdb⟩ <;>
      rw [show (applyOp parse stringify db (Op.start sid)) = (startQuiz db sid).db from rfl, hdb]
    · first
      | exact h2
      | exact h3
    · first
      | exact complete_results_setStatus_collecting db sid h2
      | exact h3
  | close sid ai =>
    rcases closeEarly_db_cases parse stringify db sid ai with hdb | ⟨r, -, hdb⟩ <;>
      rw [show (applyOp parse stringify db (Op.close sid ai)) = (closeEarly parse stringify db sid ai).db from rfl, hdb]
    · first
      | exact h2
      | exact h3
    · first
      | exact complete_results_setSessionResults db sid (stringify r) h2
      | exact h3
  | cleanup now =>
    first
    | (intro s hs hst
       exact h2 s (List.mem_of_mem_filter hs) hst)
    | (intro p hp hc
       exact h3 p (List.mem_of_mem_filter hp) hc)
  | getSession sid =>
    first
    | exact h2
    | exact h3
  | getResults sid =>
    first
    | exact h2
    | exact h3
  | submit sid2 pid2 ans ai =>
    cases hfp : db.participants.find? (fun q => q.id == pid2 && q.session_id == sid2) with
    | none =>
      have h1 := submitPhase1_notFound db sid2 pid2 (stringify ans) hfp
      have hsnap : (submitPhase1 db sid2 pid2 (stringify ans)).snapshot = none := by rw [h1]
      rw [show (applyOp parse stringify db (Op.submit sid2 pid2 ans ai)) = (submitAnswers parse stringify db sid2 pid2 ans ai).db from rfl,
          submitAnswers_no_snapshot parse stringify db sid2 pid2 ans ai hsnap, h1]
      first
      | exact h2
      | exact h3
    | some p =>
      cases hfs : findSession db sid2 with
      | none =>
        have h1 := submitPhase1_noSession db sid2 pid2 (stringify ans) p hfp hfs
        have hsnap : (submitPhase1 db sid2 pid2 (stringify ans)).snapshot = none := by rw [h1]
        rw [show (applyOp parse stringify db (Op.submit sid2 pid2 ans ai)) = (submitAnswers parse stringify db sid2 pid2 ans ai).db from rfl,
            submitAnswers_no_snapshot parse stringify db sid2 pid2 ans ai hsnap, h1]
        have hnom : findSession (markParticipant db pid2 (stringify ans)) sid2 = none := hfs
        by_cases hall : (sessionParticipants (markParticipant db pid2 (stringify ans)) sid2).all
            (fun q => q.completed) = true
        · simp only [hall, if_true]
          first
          | (intro s hs hst
             rw [setSessionStatus_no_match _ _ _ hnom] at hs
             exact h2 s hs hst)
          | exact answers_parse_mark parse stringify db pid2 ans Hrt h3
        · simp only [hall, if_false]
          first
          | exact h2
          | exact answers_parse_mark parse stringify db pid2 ans Hrt h3
      | some sess2 =>
        have h1 := submitPhase1_found db sid2 pid2 (stringify ans) p sess2 hfp hfs
        have hsid2 : sess2.id = sid2 := by
          have h' : List.find? (fun y => y.id == sid2) db.sessions = some sess2 := hfs
          have h'' := List.find?_some h'
          simpa using h''
        have hsmem : sess2 ∈ db.sessions := by
          have h' : List.find? (fun y => y.id == sid2) db.sessions = some sess2 := hfs
          exact List.mem_of_find?_eq_some h'
        cases hall : (sessionParticipants (markParticipant db pid2 (stringify ans)) sid2).all
            (fun q => q.completed) with
        | false =>
          have hsnap : (submitPhase1 db sid2 pid2 (stringify ans)).snapshot = none := by
            rw [h1]; simp [hall]
          rw [show (applyOp parse stringify db (Op.submit sid2 pid2 ans ai)) = (submitAnswers parse stringify db sid2 pid2 ans ai).db from rfl,
              submitAnswers_no_snapshot parse stringify db sid2 pid2 ans ai hsnap, h1]
          simp only [hall]
          first
          | (intro s hs hst
             simp only [Bool.false_eq_true, if_false] at hs
             exact h2 s hs hst)
          | (simp only [Bool.false_eq_true, if_false]
             exact answers_parse_mark parse stringify db pid2 ans Hrt h3)
        | true =>
          cases hst : sess2.status != "complete" with
          | false =>
            have hcomp : sess2.status = "complete" := by
              by_contra hne
              have hbne := bne_iff_ne.mpr hne
              rw [hst] at hbne
              exact Bool.false_ne_true hbne
            have hsnap : (submitPhase1 db sid2 pid2 (stringify ans)).snapshot = none := by
              rw [h1]; simp [hall, hst]
            rw [show (applyOp parse stringify db (Op.submit sid2 pid2 ans ai)) = (submitAnswers parse stringify db sid2 pid2 ans ai).db from rfl,
                submitAnswers_no_snapshot parse stringify db sid2 pid2 ans ai hsnap, h1]
            simp only [hall, if_true]
            first
            | (intro s hs hst2
               rcases List.mem_map.mp hs with ⟨x, hx, rfl⟩
               by_cases hxi : x.id == sid2
               · have hxeq : x = sess2 := by
                   apply List.inj_on_of_nodup_map hN1 hx hsmem
                   rw [hsid2]
                   simpa using hxi
                 subst hxeq
                 have hre := h2 x hx hcomp
                 simpa [hxi] using hre
               · simp only [if_neg hxi] at hst2 ⊢
                 exact h2 x hx hst2)
            | exact answers_parse_mark parse stringify db pid2 ans Hrt h3
          | true =>
            have hansR := roster_parseable parse stringify db pid2 sid2 ans Hrt h3 hall
            obtain ⟨r, hr⟩ := generateResults_ok parse
              (sessionParticipants (markParticipant db pid2 (stringify ans)) sid2) ai hansR
            have hsnap : (submitPhase1 db sid2 pid2 (stringify ans)).snapshot =
                some (sessionParticipants (markParticipant db pid2 (stringify ans)) sid2) := by
              rw [h1]; simp [hall, hst]
            rw [show (applyOp parse stringify db (Op.submit sid2 pid2 ans ai)) = (submitAnswers parse stringify db sid2 pid2 ans ai).db from rfl,
                submitAnswers_snapshot_ok parse stringify db sid2 pid2 ans ai _ r hsnap hr, h1]
            simp only [hall, if_true]
            first
            | (intro s hs hst2
               rcases List.mem_map.mp hs with ⟨z, hz, rfl⟩
               rcases List.mem_map.mp hz with ⟨y, hy, rfl⟩
               by_cases hyi : y.id == sid2
               · simp [hyi]
               · simp only [if_neg hyi] at hst2 ⊢
                 exact h2 y hy hst2)
            | exact answers_parse_mark parse stringify db pid2 ans Hrt h3

/-- The reachable-store invariant holds after any operation sequence. -/
theorem invDB_runOps (parse : String → Option Json) (stringify : Json → String)
    (Hrt : ∀ j, (parse (stringify j)).isSome = true) (ops : List Op) :
    InvDB parse (runOps parse stringify emptyDB ops) := by
  suffices h : ∀ db, InvDB parse db → InvDB parse (runOps parse stringify db ops) by
    refine h emptyDB ⟨⟨List.nodup_nil, List.nodup_nil⟩, ?_, ?_⟩
    · intro s hs
      simp [emptyDB] at hs
    · intro p hp
      simp [emptyDB] at hp
  induction ops with
  | nil => exact fun db h => h
  | cons op rest ih =>
    intro db h
    exact ih (applyOp parse stringify db op) (invDB_applyOp parse stringify Hrt db op h)

/-- C4 counterexample.  The claimed invariant (results non-null iff status
complete) fails: after a session completes and stores results, re-invoking
StartQuiz resets status to collecting while results stay non-null. -/
theorem resultsNonNullNotCompleteCounterexample :
    sessionStatus (runOps demoParse demoStringify emptyDB c4Ops) "s1"
      = some "collecting" ∧
    sessionResults (runOps demoParse demoStringify emptyDB c4Ops) "s1"
      = some (some emptyObjStr) := by
  constructor
  · decide
  · decide

/-- C4 (amended): in every reachable store (assuming `JSON.parse` accepts
what `JSON.stringify` wrote), a session whose status is complete has
non-null results; the converse direction fails only because StartQuiz on a
complete session demotes status to collecting while results stay set. -/
theorem resultsIffCompleteAmended (parse : String → Option Json)
    (stringify : Json → String)
    (Hrt : ∀ j, (parse (stringify j)).isSome = true) (ops : List Op) (sid : String)
    (hst : sessionStatus (runOps parse stringify emptyDB ops) sid = some "complete") :
    ∃ r, sessionResults (runOps parse stringify emptyDB ops) sid = some (some r) := by
  obtain ⟨-, h2, -⟩ := invDB_runOps parse stringify Hrt ops
  unfold sessionStatus at hst
  cases hf : findSession (runOps parse stringify emptyDB ops) sid with
  | none => rw [hf] at hst; simp at hst
  | some x =>
    rw [hf] at hst
    have hxc : x.status = "complete" := by simpa using hst
    have hxm : x ∈ (runOps parse stringify emptyDB ops).sessions :=
      List.mem_of_find?_eq_some hf
    obtain ⟨r, hr⟩ := Option.isSome_iff_exists.mp (h2 x hxm hxc)
    refine ⟨r, ?_⟩
    unfold sessionResults
    rw [hf]
    simp [hr]

/-- C4 witness: the completion run reaches status complete with stored
results. -/
theorem resultsIffCompleteAmendedWitness :
    sessionStatus (runOps demoParse demoStringify emptyDB completeRunOps) "s1"
      = some "complete" ∧
    ∃ r, sessionResults (runOps demoParse demoStringify emptyDB completeRunOps) "s1"
      = some (some r) := by
  refine ⟨by decide, ?_⟩
  exact resultsIffCompleteAmended demoParse demoStringify
    (by intro j; cases j <;> rfl) completeRunOps "s1" (by decide)

/-- Every rank is at most the rank of complete. -/
theorem statusRank_le_two (s : String) : statusRank s ≤ 2 := by
  unfold statusRank
  split
  · omega
  · split
    · omega
    · split
      · omega
      · omega

/-- How one operation can change one session's status: leave it, set it to
complete, set it to collecting (StartQuiz on this session only), or delete
the row (retention sweep). -/
theorem sessionStatus_applyOp_cases (parse : String → Option Json)
    (stringify : Json → String) (db : DB) (op : Op) (sid s : String)
    (hN : (db.sessions.map (fun x => x.id)).Nodup)
    (hpre : sessionStatus db sid = some s) :
    sessionStatus (applyOp parse stringify db op) sid = some s ∨
    sessionStatus (applyOp parse stringify db op) sid = some "complete" ∨
    (Op.isStartOn op sid = true ∧
      sessionStatus (applyOp parse stringify db op) sid = some "collecting") ∨
    sessionStatus (applyOp parse stringify db op) sid = none := by
  cases op with
  | create sid2 pid2 now hostName =>
    rcases createSession_db_cases db sid2 pid2 now hostName with hdb | ⟨-, hdb | ⟨-, hdb⟩⟩ <;>
      rw [show applyOp parse stringify db (Op.create sid2 pid2 now hostName)
          = (createSession db sid2 pid2 now hostName).db from rfl, hdb]
    · left; exact hpre
    all_goals
      left
      unfold sessionStatus findSession at hpre ⊢
      cases hf : db.sessions.find? (fun x => x.id == sid) with
      | none => rw [hf] at hpre; simp at hpre
      | some x =>
        rw [find?_append_of_some _ _ _ _ hf]
        rw [hf] at hpre
        exact hpre
  | join sid2 pid2 now n =>
    rcases joinSession_db_cases db sid2 pid2 now n with hdb | ⟨-, hdb⟩ <;>
      rw [show applyOp parse stringify db (Op.join sid2 pid2 now n)
          = (joinSession db sid2 pid2 now n).db from rfl, hdb] <;>
      exact Or.inl hpre
  | start sid2 =>
    rcases startQuiz_db_cases db sid2 with hdb | ⟨-, hdb⟩ <;>
      rw [show applyOp parse stringify db (Op.start sid2)
          = (startQuiz db sid2).db from rfl, hdb]
    · left; exact hpre
    · rcases sessionStatus_setSessionStatus_cases db sid2 "collecting" sid s hpre with
        hc | ⟨heq, hc⟩
      · left; exact hc
      · right; right; left
        exact ⟨by simp [Op.isStartOn, heq], hc⟩
  | submit sid2 pid2 ans ai =>
    rcases submitAnswers_db_cases parse stringify db sid2 pid2 ans ai with
      hdb | hdb | hdb | ⟨r, hdb⟩ <;>
      rw [show applyOp parse stringify db (Op.submit sid2 pid2 ans ai)
          = (submitAnswers parse stringify db sid2 pid2 ans ai).db from rfl, hdb]
    · left; exact hpre
    · left; exact hpre
    · rcases sessionStatus_setSessionStatus_cases (markParticipant db pid2 (stringify ans))
          sid2 "complete" sid s hpre with hc | ⟨-, hc⟩
      · left; exact hc
      · right; left; exact hc
    · rcases sessionStatus_setSessionStatus_cases (markParticipant db pid2 (stringify ans))
          sid2 "complete" sid s hpre with hc | ⟨-, hc⟩
      · rcases sessionStatus_setSessionResults_cases _ sid2 (stringify r) "complete" sid s hc
          with hc2 | hc2
        · left; exact hc2
        · right; left; exact hc2
      · rcases sessionStatus_setSessionResults_cases _ sid2 (stringify r) "complete" sid
          "complete" hc with hc2 | hc2
        · right; left; exact hc2
        · right; left; exact hc2
  | close sid2 ai =>
    rcases closeEarly_db_cases parse stringify db sid2 ai with hdb | ⟨r, -, hdb⟩ <;>
      rw [show applyOp parse stringify db (Op.close sid2 ai)
          = (closeEarly parse stringify db sid2 ai).db from rfl, hdb]
    · left; exact hpre
    · rcases sessionStatus_setSessionResults_cases db sid2 (stringify r) "complete" sid s hpre
        with hc | hc
      · left; exact hc
      · right; left; exact hc
  | cleanup now =>
    cases hf2 : (cleanupOldSessions db now).sessions.find? (fun y => y.id == sid) with
    | none =>
      right; right; right
      unfold sessionStatus findSession
      rw [show (applyOp parse stringify db (Op.cleanup now)).sessions
          = (cleanupOldSessions db now).sessions from rfl, hf2]
      rfl
    | some y =>
      left
      unfold sessionStatus findSession at hpre ⊢
      cases hf : db.sessions.find? (fun x => x.id == sid) with
      | none => rw [hf] at hpre; simp at hpre
      | some x =>
        rw [hf] at hpre
        have hymem : y ∈ db.sessions :=
          List.mem_of_mem_filter (List.mem_of_find?_eq_some hf2)
        have hyid : y.id = sid := by
          have := List.find?_some hf2
          simpa using this
        have hxmem : x ∈ db.sessions := List.mem_of_find?_eq_some hf
        have hxid : x.id = sid := by
          have := List.find?_some hf
          simpa using this
        have hyx : y = x :=
          List.inj_on_of_nodup_map hN hymem hxmem (by rw [hyid, hxid])
        rw [show (applyOp parse stringify db (Op.cleanup now)).sessions
            = (cleanupOldSessions db now).sessions from rfl, hf2, hyx]
        exact hpre
  | getSession sid2 => left; exact hpre
  | getResults sid2 => left; exact hpre

/-- C3 counterexample.  The claim says status never moves backward and a
re-invoked StartQuiz reaches no distinct state; but StartQuiz on a complete
session unconditionally writes status collecting, a backward move into a
distinct state. -/
theorem statusBackwardCounterexample :
    sessionStatus (runOps demoParse demoStringify emptyDB completeRunOps) "s1"
      = some "complete" ∧
    sessionStatus (applyOp demoParse demoStringify
        (runOps demoParse demoStringify emptyDB completeRunOps) (Op.start "s1")) "s1"
      = some "collecting" := by
  constructor
  · decide
  · decide

/-- C3 (amended): on every reachable store, status never moves backward
under any operation other than StartQuiz on the session itself; it never
moves from collecting back to lobby under any operation; and StartQuiz on a
session already collecting reaches no distinct state and only re-emits
`questions_ready`.  (StartQuiz on a complete session, however, demotes
status to collecting.) -/
theorem statusMonotoneAmended (parse : String → Option Json)
    (stringify : Json → String) (ops : List Op) (op : Op) (sid : String) :
    (∀ s s', Op.isStartOn op sid = false →
      sessionStatus (runOps parse stringify emptyDB ops) sid = some s →
      sessionStatus (applyOp parse stringify (runOps parse stringify emptyDB ops) op) sid
        = some s' →
      statusRank s ≤ statusRank s') ∧
    (∀ s', sessionStatus (runOps parse stringify emptyDB ops) sid = some "collecting" →
      sessionStatus (applyOp parse stringify (runOps parse stringify emptyDB ops) op) sid
        = some s' →
      s' ≠ "lobby") ∧
    (sessionStatus (runOps parse stringify emptyDB ops) sid = some "collecting" →
      (startQuiz (runOps parse stringify emptyDB ops) sid).db
          = runOps parse stringify emptyDB ops ∧
      (startQuiz (runOps parse stringify emptyDB ops) sid).events
          = [.questions_ready]) := by
  have hN := (invIds_runOps parse stringify ops).1
  refine ⟨?_, ?_, ?_⟩
  · intro s s' hnost hpre hpost
    rcases sessionStatus_applyOp_cases parse stringify _ op sid s hN hpre with
      hc | hc | ⟨hst, hc⟩ | hc
    · rw [hpost] at hc
      have : s' = s := Option.some.inj hc
      rw [this]
    · rw [hpost] at hc
      have : s' = "complete" := Option.some.inj hc
      rw [this]
      exact statusRank_le_two s
    · rw [hst] at hnost
      exact absurd hnost (by simp)
    · rw [hpost] at hc
      simp at hc
  · intro s' hpre hpost
    rcases sessionStatus_applyOp_cases parse stringify _ op sid "collecting" hN hpre with
      hc | hc | ⟨-, hc⟩ | hc
    · rw [hpost] at hc
      have : s' = "collecting" := Option.some.inj hc
      rw [this]
      decide
    · rw [hpost] at hc
      have : s' = "complete" := Option.some.inj hc
      rw [this]
      decide
    · rw [hpost] at hc
      have : s' = "collecting" := Option.some.inj hc
      rw [this]
      decide
    · rw [hpost] at hc
      simp at hc
  · intro hpre
    cases hf : findSession (runOps parse stringify emptyDB ops) sid with
    | none =>
      unfold sessionStatus at hpre
      rw [hf] at hpre
      simp at hpre
    | some x =>
      have hxid : x.id = sid := by
        have h' : List.find? (fun y => y.id == sid)
            (runOps parse stringify emptyDB ops).sessions = some x := hf
        have h'' := List.find?_some h'
        simpa using h''
      have hxst : x.status = "collecting" := by
        unfold sessionStatus at hpre
        rw [hf] at hpre
        simpa using hpre
      have hxmem : x ∈ (runOps parse stringify emptyDB ops).sessions :=
        List.mem_of_find?_eq_some hf
      constructor
      · show (startQuiz _ sid).db = _
        simp only [startQuiz, hf]
        have he : ∀ y ∈ (runOps parse stringify emptyDB ops).sessions,
            (if y.id == sid then { y with status := "collecting" } else y) = y := by
          intro y hy
          by_cases hyi : y.id == sid
          · have hyx : y = x := by
              apply List.inj_on_of_nodup_map hN hy hxmem
              rw [hxid]
              simpa using hyi
            subst hyx
            rw [if_pos hyi, ← hxst]
          · rw [if_neg hyi]
        have hmap : (runOps parse stringify emptyDB ops).sessions.map
            (fun y => if y.id == sid then { y with status := "collecting" } else y)
            = (runOps parse stringify emptyDB ops).sessions := by
          rw [List.map_congr_left he]
          simp
        show setSessionStatus (runOps parse stringify emptyDB ops) sid "collecting"
            = runOps parse stringify emptyDB ops
        unfold setSessionStatus
        rw [hmap]
      · simp [startQuiz, hf]

/-- C3 witness: a submit on a lobby session moves its status forward, from
lobby to complete. -/
theorem statusMonotoneAmendedWitness :
    Op.isStartOn (Op.submit "s1" "h1" Json.null none) "s1" = false ∧
    sessionStatus (runOps demoParse demoStringify emptyDB
        [Op.create "s1" "h1" 0 (JSValue.str "Alice")]) "s1" = some "lobby" ∧
    sessionStatus (applyOp demoParse demoStringify
        (runOps demoParse demoStringify emptyDB [Op.create "s1" "h1" 0 (JSValue.str "Alice")])
        (Op.submit "s1" "h1" Json.null none)) "s1" = some "complete" ∧
    statusRank "lobby" ≤ statusRank "complete" := by
  refine ⟨by decide, by decide, by decide, ?_⟩
  exact (statusMonotoneAmended demoParse demoStringify
      [Op.create "s1" "h1" 0 (JSValue.str "Alice")]
      (Op.submit "s1" "h1" Json.null none) "s1").1 "lobby" "complete"
    (by decide) (by decide) (by decide)

/-- How one operation can change one participant row: leave it, overwrite
its answers and completed flag (a submit for this participant id), or
delete it (retention sweep). -/
theorem participantById_applyOp_cases (parse : String → Option Json)
    (stringify : Json → String) (db : DB) (op : Op) (pid : String)
    (q : ParticipantRow)
    (hN : (db.participants.map (fun x => x.id)).Nodup)
    (hpre : participantById db pid = some q) :
    participantById (applyOp parse stringify db op) pid = some q ∨
    (Op.isSubmitFor op pid = true ∧
      ∃ ans : Json, participantById (applyOp parse stringify db op) pid =
        some { q with answers := some (stringify ans), completed := true }) ∨
    (Op.isCleanup op = true ∧
      participantById (applyOp parse stringify db op) pid = none) := by
  have hqid : q.id = pid := by
    have h' : List.find? (fun y => y.id == pid) db.participants = some q := hpre
    have h'' := List.find?_some h'
    simpa using h''
  cases op with
  | create sid2 pid2 now hostName =>
    rcases createSession_db_cases db sid2 pid2 now hostName with hdb | ⟨-, hdb | ⟨-, hdb⟩⟩ <;>
      rw [show applyOp parse stringify db (Op.create sid2 pid2 now hostName)
          = (createSession db sid2 pid2 now hostName).db from rfl, hdb]
    · left; exact hpre
    · left; exact hpre
    · left
      unfold participantById at hpre ⊢
      exact find?_append_of_some _ _ _ _ hpre
  | join sid2 pid2 now n =>
    rcases joinSession_db_cases db sid2 pid2 now n with hdb | ⟨-, hdb⟩ <;>
      rw [show applyOp parse stringify db (Op.join sid2 pid2 now n)
          = (joinSession db sid2 pid2 now n).db from rfl, hdb]
    · left; exact hpre
    · left
      unfold participantById at hpre ⊢
      exact find?_append_of_some _ _ _ _ hpre
  | start sid2 =>
    rcases startQuiz_db_cases db sid2 with hdb | ⟨-, hdb⟩ <;>
      rw [show applyOp parse stringify db (Op.start sid2)
          = (startQuiz db sid2).db from rfl, hdb] <;>
      exact Or.inl hpre
  | close sid2 ai =>
    rcases closeEarly_db_cases parse stringify db sid2 ai with hdb | ⟨r, -, hdb⟩ <;>
      rw [show applyOp parse stringify db (Op.close sid2 ai)
          = (closeEarly parse stringify db sid2 ai).db from rfl, hdb] <;>
      exact Or.inl hpre
  | getSession sid2 => left; exact hpre
  | getResults sid2 => left; exact hpre
  | cleanup now =>
    cases hf2 : (cleanupOldSessions db now).participants.find? (fun y => y.id == pid) with
    | none =>
      right; right
      refine ⟨rfl, ?_⟩
      show (cleanupOldSessions db now).participants.find? (fun y => y.id == pid) = none
      exact hf2
    | some y =>
      left
      have hymem : y ∈ db.participants :=
        List.mem_of_mem_filter (List.mem_of_find?_eq_some hf2)
      have hyid : y.id = pid := by
        have := List.find?_some hf2
        simpa using this
      have hqmem : q ∈ db.participants := List.mem_of_find?_eq_some hpre
      have hyq : y = q :=
        List.inj_on_of_nodup_map hN hymem hqmem (by rw [hyid, hqid])
      show (cleanupOldSessions db now).participants.find? (fun y => y.id == pid) = some q
      rw [hf2, hyq]
  | submit sid2 pid2 ans ai =>
    have hmarked : ∀ dbx : DB,
        dbx.participants = (markParticipant db pid2 (stringify ans)).participants →
        participantById dbx pid = some q ∨
        (Op.isSubmitFor (Op.submit sid2 pid2 ans ai) pid = true ∧
          ∃ a : Json, participantById dbx pid =
            some { q with answers := some (stringify a), completed := true }) := by
      intro dbx hdbx
      have hfind : participantById dbx pid =
          (participantById db pid).map
            (fun x => if x.id == pid2 then { x with answers := some (stringify ans), completed := true } else x) := by
        unfold participantById
        rw [hdbx]
        exact participantById_markParticipant db pid2 (stringify ans) pid
      rw [hfind, hpre]
      by_cases hq2 : q.id == pid2
      · right
        have hpid2 : pid2 = pid := by
          have : q.id = pid2 := by simpa using hq2
          rw [← this, hqid]
        refine ⟨by simp [Op.isSubmitFor, hpid2], ans, ?_⟩
        show some (if q.id == pid2
            then { q with answers := some (stringify ans), completed := true } else q)
          = some { q with answers := some (stringify ans), completed := true }
        rw [if_pos hq2]
      · left
        show some (if q.id == pid2
            then { q with answers := some (stringify ans), completed := true } else q)
          = some q
        rw [if_neg hq2]
    rcases submitAnswers_db_cases parse stringify db sid2 pid2 ans ai with
      hdb | hdb | hdb | ⟨r, hdb⟩ <;>
      rw [show applyOp parse stringify db (Op.submit sid2 pid2 ans ai)
          = (submitAnswers parse stringify db sid2 pid2 ans ai).db from rfl]
    · rw [hdb]; left; exact hpre
    · rcases hmarked (markParticipant db pid2 (stringify ans)) rfl with hc | ⟨ht, a, hc⟩
      · left; rw [hdb]; exact hc
      · right; left; exact ⟨ht, a, by rw [hdb]; exact hc⟩
    · rcases hmarked (setSessionStatus (markParticipant db pid2 (stringify ans)) sid2 "complete") rfl
        with hc | ⟨ht, a, hc⟩
      · left; rw [hdb]; exact hc
      · right; left; exact ⟨ht, a, by rw [hdb]; exact hc⟩
    · rcases hmarked (setSessionResults
          (setSessionStatus (markParticipant db pid2 (stringify ans)) sid2 "complete")
          sid2 (stringify r) "complete") rfl with hc | ⟨ht, a, hc⟩
      · left; rw [hdb]; exact hc
      · right; left; exact ⟨ht, a, by rw [hdb]; exact hc⟩

/-- C9 counterexample.  The claim says a participant record is mutated at
most once after creation; but a second submit for the same participant
overwrites the answers with a different blob. -/
theorem participantResubmitCounterexample :
    (participantById (runOps demoParse demoStringify emptyDB completeRunOps) "h1").map
        ParticipantRow.answers = some (some "null") ∧
    (participantById (runOps demoParse demoStringify emptyDB
        (completeRunOps ++ [Op.submit "s1" "h1" (Json.obj []) none])) "h1").map
        ParticipantRow.answers = some (some emptyObjStr) ∧
    ("null" : String) ≠ emptyObjStr := by
  refine ⟨by decide, by decide, by decide⟩

/-- C9 (amended): on every reachable store, a participant's completed flag
is monotone (never reset); only a submit for that participant id mutates
its record (setting answers and completed); and only the retention sweep
deletes it.  A repeated submit, however, overwrites answers again. -/
theorem participantMutationAmended (parse : String → Option Json)
    (stringify : Json → String) (ops : List Op) (op : Op) (pid : String) :
    (∀ q q', participantById (runOps parse stringify emptyDB ops) pid = some q →
      participantById (applyOp parse stringify (runOps parse stringify emptyDB ops) op) pid
        = some q' →
      q.completed = true → q'.completed = true) ∧
    (Op.isSubmitFor op pid = false → Op.isCleanup op = false →
      ∀ q, participantById (runOps parse stringify emptyDB ops) pid = some q →
        participantById (applyOp parse stringify (runOps parse stringify emptyDB ops) op) pid
          = some q) ∧
    (Op.isCleanup op = false →
      ∀ q, participantById (runOps parse stringify emptyDB ops) pid = some q →
        (participantById (applyOp parse stringify (runOps parse stringify emptyDB ops) op)
          pid).isSome = true) := by
  have hN := (invIds_runOps parse stringify ops).2
  refine ⟨?_, ?_, ?_⟩
  · intro q q' hpre hpost hc
    rcases participantById_applyOp_cases parse stringify _ op pid q hN hpre with
      hc1 | ⟨-, a, hc1⟩ | ⟨-, hc1⟩
    · rw [hpost] at hc1
      have : q' = q := Option.some.inj hc1
      rw [this]
      exact hc
    · rw [hpost] at hc1
      have : q' = { q with answers := some (stringify a), completed := true } :=
        Option.some.inj hc1
      rw [this]
    · rw [hpost] at hc1
      simp at hc1
  · intro hnsub hncl q hpre
    rcases participantById_applyOp_cases parse stringify _ op pid q hN hpre with
      hc1 | ⟨hsub, -⟩ | ⟨hcl, -⟩
    · exact hc1
    · rw [hnsub] at hsub
      exact absurd hsub (by simp)
    · rw [hncl] at hcl
      exact absurd hcl (by simp)
  · intro hncl q hpre
    rcases participantById_applyOp_cases parse stringify _ op pid q hN hpre with
      hc1 | ⟨-, a, hc1⟩ | ⟨hcl, -⟩
    · rw [hc1]; rfl
    · rw [hc1]; rfl
    · rw [hncl] at hcl
      exact absurd hcl (by simp)

/-- C9 witness: a StartQuiz call leaves a completed participant record
untouched and present. -/
theorem participantMutationAmendedWitness :
    Op.isSubmitFor (Op.start "s1") "h1" = false ∧
    Op.isCleanup (Op.start "s1") = false ∧
    participantById (runOps demoParse demoStringify emptyDB completeRunOps) "h1" =
      some ⟨"h1", "s1", "Alice", some "null", true, 0⟩ ∧
    participantById (applyOp demoParse demoStringify
        (runOps demoParse demoStringify emptyDB completeRunOps) (Op.start "s1")) "h1" =
      some ⟨"h1", "s1", "Alice", some "null", true, 0⟩ := by
  refine ⟨by decide, by decide, by decide, ?_⟩
  exact (participantMutationAmended demoParse demoStringify completeRunOps
      (Op.start "s1") "h1").2.1 (by decide) (by decide)
    ⟨"h1", "s1", "Alice", some "null", true, 0⟩ (by decide)

/-- Status after by-id UPDATE on the session that was found. -/
theorem sessionStatus_setStatus_self (db : DB) (sid st : String) (sess : SessionRow)
    (h : findSession db sid = some sess) :
    sessionStatus (setSessionStatus db sid st) sid = some st := by
  have hsid : sess.id = sid := by
    have h' : List.find? (fun y => y.id == sid) db.sessions = some sess := h
    have h'' := List.find?_some h'
    simpa using h''
  unfold sessionStatus
  rw [findSession_setSessionStatus, h]
  simp [hsid]

/-- Status after a results+status UPDATE on the session that was found. -/
theorem sessionStatus_setResults_self (db : DB) (sid res st : String) (sess : SessionRow)
    (h : findSession db sid = some sess) :
    sessionStatus (setSessionResults db sid res st) sid = some st := by
  have hsid : sess.id = sid := by
    have h' : List.find? (fun y => y.id == sid) db.sessions = some sess := h
    have h'' := List.find?_some h'
    simpa using h''
  unfold sessionStatus
  rw [findSession_setSessionResults, h]
  simp [hsid]

/-- One event-loop segment from the ready state when phase 1 does not
suspend. -/
theorem threadStep_pc0_none (parse : String → Option Json) (stringify : Json → String)
    (sid pid : String) (ans : Json) (ai : Option String)
    (db : DB) (snap : List ParticipantRow) (synths : Nat)
    (h : (submitPhase1 db sid pid (stringify ans)).snapshot = none) :
    threadStep parse stringify sid pid ans ai db 0 snap synths
      = ((submitPhase1 db sid pid (stringify ans)).db, 2, snap, synths) := by
  simp [threadStep, h]

/-- One event-loop segment from the ready state when phase 1 suspends at
its synthesis point. -/
theorem threadStep_pc0_some (parse : String → Option Json) (stringify : Json → String)
    (sid pid : String) (ans : Json) (ai : Option String)
    (db : DB) (snap roster : List ParticipantRow) (synths : Nat)
    (h : (submitPhase1 db sid pid (stringify ans)).snapshot = some roster) :
    threadStep parse stringify sid pid ans ai db 0 snap synths
      = ((submitPhase1 db sid pid (stringify ans)).db, 1, roster, synths) := by
  simp [threadStep, h]

/-- One event-loop segment from the suspended state runs phase 2 and counts
the synthesizer invocation. -/
theorem threadStep_pc1 (parse : String → Option Json) (stringify : Json → String)
    (sid pid : String) (ans : Json) (ai : Option String)
    (db : DB) (snap : List ParticipantRow) (synths : Nat) :
    threadStep parse stringify sid pid ans ai db 1 snap synths
      = ((submitPhase2 parse stringify db sid snap ai).1, 2, snap, synths + 1) := by
  simp [threadStep]

/-- A finished thread does nothing. -/
theorem threadStep_other (parse : String → Option Json) (stringify : Json → String)
    (sid pid : String) (ans : Json) (ai : Option String)
    (db : DB) (pc : Nat) (snap : List ParticipantRow) (synths : Nat)
    (h0 : ¬ pc = 0) (h1 : ¬ pc = 1) :
    threadStep parse stringify sid pid ans ai db pc snap synths = (db, pc, snap, synths) := by
  simp only [threadStep, if_neg h0, if_neg h1]

/-- One scheduled segment of one submit thread preserves the race
invariant (counting the other thread's pending synthesis as `otherPend`). -/
theorem raceInv_threadStep (parse : String → Option Json) (stringify : Json → String)
    (sid pid : String) (ans : Json) (ai : Option String)
    (db : DB) (pc : Nat) (snap : List ParticipantRow) (synths otherPend : Nat)
    (h1 : synths + ((if pc = 1 then 1 else 0) + otherPend) ≤ 1)
    (h2 : 1 ≤ synths + ((if pc = 1 then 1 else 0) + otherPend) →
      sessionStatus db sid = some "complete") :
    (threadStep parse stringify sid pid ans ai db pc snap synths).2.2.2 +
        ((if (threadStep parse stringify sid pid ans ai db pc snap synths).2.1 = 1
          then 1 else 0) + otherPend) ≤ 1 ∧
    (1 ≤ (threadStep parse stringify sid pid ans ai db pc snap synths).2.2.2 +
        ((if (threadStep parse stringify sid pid ans ai db pc snap synths).2.1 = 1
          then 1 else 0) + otherPend) →
      sessionStatus (threadStep parse stringify sid pid ans ai db pc snap synths).1 sid
        = some "complete") := by
  by_cases hpc0 : pc = 0
  · subst hpc0
    cases hfp : db.participants.find? (fun q => q.id == pid && q.session_id == sid) with
    | none =>
      have hph := submitPhase1_notFound db sid pid (stringify ans) hfp
      have hsnap : (submitPhase1 db sid pid (stringify ans)).snapshot = none := by rw [hph]
      rw [threadStep_pc0_none parse stringify sid pid ans ai db snap synths hsnap, hph]
      constructor
      · simpa using h1
      · intro hge
        exact h2 (by simpa using hge)
    | some p =>
      cases hfs : findSession db sid with
      | none =>
        have hph := submitPhase1_noSession db sid pid (stringify ans) p hfp hfs
        have hsnap : (submitPhase1 db sid pid (stringify ans)).snapshot = none := by rw [hph]
        rw [threadStep_pc0_none parse stringify sid pid ans ai db snap synths hsnap, hph]
        constructor
        · simpa using h1
        · intro hge
          have hpre := h2 (by simpa using hge)
          unfold sessionStatus at hpre
          rw [hfs] at hpre
          simp at hpre
      | some sess2 =>
        have hph := submitPhase1_found db sid pid (stringify ans) p sess2 hfp hfs
        cases hall : (sessionParticipants (markParticipant db pid (stringify ans)) sid).all
            (fun q => q.completed) with
        | false =>
          have hsnap : (submitPhase1 db sid pid (stringify ans)).snapshot = none := by
            rw [hph]; simp [hall]
          rw [threadStep_pc0_none parse stringify sid pid ans ai db snap synths hsnap, hph]
          constructor
          · simpa using h1
          · intro hge
            have hpre := h2 (by simpa using hge)
            simp only [hall, Bool.false_eq_true, if_false]
            exact hpre
        | true =>
          have hstatus : sessionStatus
              (setSessionStatus (markParticipant db pid (stringify ans)) sid "complete") sid
              = some "complete" :=
            sessionStatus_setStatus_self _ _ _ sess2 hfs
          cases hst : sess2.status != "complete" with
          | false =>
            have hsnap : (submitPhase1 db sid pid (stringify ans)).snapshot = none := by
              rw [hph]; simp [hall, hst]
            rw [threadStep_pc0_none parse stringify sid pid ans ai db snap synths hsnap, hph]
            constructor
            · simpa using h1
            · intro _
              simp only [hall, if_true]
              exact hstatus
          | true =>
            have hsnap : (submitPhase1 db sid pid (stringify ans)).snapshot =
                some (sessionParticipants (markParticipant db pid (stringify ans)) sid) := by
              rw [hph]; simp [hall, hst]
            rw [threadStep_pc0_some parse stringify sid pid ans ai db snap _ synths hsnap, hph]
            have hz : synths + otherPend = 0 := by
              by_contra hnz
              have hge : 1 ≤ synths + ((if (0 : Nat) = 1 then 1 else 0) + otherPend) := by
                simp
                omega
              have hpre := h2 hge
              unfold sessionStatus at hpre
              rw [hfs] at hpre
              have hcomp : sess2.status = "complete" := by simpa using hpre
              exact (bne_iff_ne.mp hst) hcomp
            constructor
            · simp
              omega
            · intro _
              simp only [hall, if_true]
              exact hstatus
  · by_cases hpc1 : pc = 1
    · subst hpc1
      rw [threadStep_pc1 parse stringify sid pid ans ai db snap synths]
      have hpre := h2 (by simp; omega)
      constructor
      · simp at h1 ⊢
        omega
      · intro _
        cases hg : generateResults parse snap ai with
        | error e =>
          have hd : (submitPhase2 parse stringify db sid snap ai).1 = db := by
            simp [submitPhase2, hg]
          rw [hd]
          exact hpre
        | ok r =>
          have hd : (submitPhase2 parse stringify db sid snap ai).1
              = setSessionResults db sid (stringify r) "complete" := by
            simp [submitPhase2, hg]
          rw [hd]
          unfold sessionStatus at hpre
          cases hf : findSession db sid with
          | none => rw [hf] at hpre; simp at hpre
          | some x =>
            exact sessionStatus_setResults_self db sid (stringify r) "complete" x hf
    · rw [threadStep_other parse stringify sid pid ans ai db pc snap synths hpc0 hpc1]
      exact ⟨h1, fun hge => h2 hge⟩

/-- Each scheduler step preserves the race invariant. -/
theorem raceInv_raceStep (parse : String → Option Json) (stringify : Json → String)
    (sid pidA : String) (ansA : Json) (aiA : Option String)
    (pidB : String) (ansB : Json) (aiB : Option String)
    (cfg : RaceConfig) (who : Bool) (h : RaceInv sid cfg) :
    RaceInv sid (raceStep parse stringify sid pidA ansA aiA pidB ansB aiB cfg who) := by
  obtain ⟨h1, h2⟩ := h
  have h1' : cfg.synths + ((if cfg.pcA = 1 then 1 else 0) + (if cfg.pcB = 1 then 1 else 0))
      ≤ 1 := h1
  have h2' : 1 ≤ cfg.synths +
      ((if cfg.pcA = 1 then 1 else 0) + (if cfg.pcB = 1 then 1 else 0)) →
      sessionStatus cfg.db sid = some "complete" := h2
  cases who with
  | true =>
    have hh := raceInv_threadStep parse stringify sid pidA ansA aiA cfg.db cfg.pcA cfg.snapA
      cfg.synths (if cfg.pcB = 1 then 1 else 0) h1' h2'
    exact ⟨hh.1, hh.2⟩
  | false =>
    have hh := raceInv_threadStep parse stringify sid pidB ansB aiB cfg.db cfg.pcB cfg.snapB
      cfg.synths (if cfg.pcA = 1 then 1 else 0)
      (by omega) (fun hge => h2' (by omega))
    constructor
    · show (threadStep parse stringify sid pidB ansB aiB cfg.db cfg.pcB cfg.snapB
          cfg.synths).2.2.2 +
        ((if cfg.pcA = 1 then 1 else 0) +
         (if (threadStep parse stringify sid pidB ansB aiB cfg.db cfg.pcB cfg.snapB
            cfg.synths).2.1 = 1 then 1 else 0)) ≤ 1
      have := hh.1
      omega
    · intro hge
      apply hh.2
      have hge' : 1 ≤ (threadStep parse stringify sid pidB ansB aiB cfg.db cfg.pcB cfg.snapB
          cfg.synths).2.2.2 +
        ((if cfg.pcA = 1 then 1 else 0) +
         (if (threadStep parse stringify sid pidB ansB aiB cfg.db cfg.pcB cfg.snapB
            cfg.synths).2.1 = 1 then 1 else 0)) := hge
      omega

/-- C1: under the event loop's run-to-completion semantics, when two submit
calls on the same session race to be the last submitter, every interleaving
of their atomic segments invokes the Recommendation Synthesizer at most
once: phase 1 both sets status to complete and decides synthesis in one
atomic segment, so the later phase 1 reads complete and stands down. -/
theorem raceSynthAtMostOnce (parse : String → Option Json) (stringify : Json → String)
    (db : DB) (sid pidA : String) (ansA : Json) (aiA : Option String)
    (pidB : String) (ansB : Json) (aiB : Option String) (sched : List Bool) :
    (raceRun parse stringify sid pidA ansA aiA pidB ansB aiB
      (raceInit db) sched).synths ≤ 1 := by
  suffices h : ∀ cfg, RaceInv sid cfg →
      RaceInv sid (raceRun parse stringify sid pidA ansA aiA pidB ansB aiB cfg sched) by
    have hinit : RaceInv sid (raceInit db) := by
      constructor
      · show 0 + ((if (0 : Nat) = 1 then 1 else 0) + (if (0 : Nat) = 1 then 1 else 0)) ≤ 1
        simp
      · intro hx
        have hx' : 1 ≤ 0 + ((if (0 : Nat) = 1 then 1 else 0) +
            (if (0 : Nat) = 1 then 1 else 0)) := hx
        simp at hx'
    obtain ⟨hle, -⟩ := h (raceInit db) hinit
    have hle' : (raceRun parse stringify sid pidA ansA aiA pidB ansB aiB
        (raceInit db) sched).synths + _ ≤ 1 := hle
    omega
  induction sched with
  | nil => exact fun cfg hc => hc
  | cons who rest ih =>
    intro cfg hc
    exact ih (raceStep parse stringify sid pidA ansA aiA pidB ansB aiB cfg who)
      (raceInv_raceStep parse stringify sid pidA ansA aiA pidB ansB aiB cfg who hc)
